import Mathlib

/- Verification of the playwright-abq scheduling and dispatch engine:
   test grouping (createTestGroups), shard partitioning (Runner._filterForCurrentShard),
   the ABQ configuration handling (applyAbqConfiguration,
   checkForConfigurationIncompatibility), and the remote-coordinated AbqDispatcher
   (_scheduleJob, _submitTestResult).  JavaScript numbers that hold test durations are
   modelled as rationals; JavaScript Map objects (insertion-ordered) are modelled as
   association lists. -/

namespace PlaywrightAbq

/-- Internal test status: the five statuses switched on by AbqDispatcher._submitTestResult. -/
inductive TestStatus
  | passed
  | failed
  | timedOut
  | skipped
  | interrupted
deriving DecidableEq, Repr

/-- Parallel mode of a suite, as read from suite._parallelMode by createTestGroups. -/
inductive ParallelMode
  | defaultMode
  | serial
  | parallelMode
deriving DecidableEq, Repr

/-- One ancestor suite of a test, as seen by the upward parent walk in createTestGroups:
its identity, its parallel mode, and whether its hooks contain a beforeAll or afterAll. -/
structure SuiteInfo where
  suiteId : Nat
  parallelMode : ParallelMode
  hasBeforeAllOrAfterAllHooks : Bool
deriving DecidableEq, Repr

/-- A test case with the fields the scheduling engine reads.  parents lists the ancestor
chain from the immediate parent upward, in the order walked by createTestGroups.
runStatus and passes describe what happens when the test is actually executed by a
worker (execution itself happens in worker processes, outside the engine): the status
recorded in the result appended by the run, and the value of test.ok() afterwards. -/
structure TestCase where
  id : String
  title : String
  workerHash : String
  requireFile : String
  repeatEachIndex : Nat
  projectId : String
  parents : List SuiteInfo
  runStatus : TestStatus
  passes : Bool
  duration : ℚ
deriving DecidableEq, Repr

/-- An atomic schedulable unit (TestGroup of dispatcher.ts). -/
structure TestGroup where
  workerHash : String
  requireFile : String
  repeatEachIndex : Nat
  projectId : String
  tests : List TestCase
deriving DecidableEq, Repr

/-- Lookup in an insertion-ordered map (JavaScript Map.get), map as association list. -/
def omGet {κ ν : Type} [DecidableEq κ] (m : List (κ × ν)) (k : κ) : Option ν :=
  (m.find? (fun p => decide (p.1 = k))).map (fun p => p.2)

/-- JavaScript Map.set: overwrite in place when the key is present, append otherwise. -/
def omSet {κ ν : Type} [DecidableEq κ] (m : List (κ × ν)) (k : κ) (v : ν) : List (κ × ν) :=
  match m with
  | [] => [(k, v)]
  | p :: rest => if p.1 = k then (k, v) :: rest else p :: omSet rest k v

/-- JavaScript Map.delete: drop the binding of k, keeping the order of the others. -/
def omDelete {κ ν : Type} [DecidableEq κ] (m : List (κ × ν)) (k : κ) : List (κ × ν) :=
  m.filter (fun p => decide (p.1 ≠ k))

/-- A shard request: 1-based current index and total shard count (config.shard). -/
structure Shard where
  current : Nat
  total : Nat
deriving DecidableEq, Repr

/-- The walk over groups in Runner._filterForCurrentShard: a group is kept iff the
cumulative test count at its start, i.e. the position of its first test, lies in
the half-open range [lo, hi). -/
def shardWalk (lo hi : Nat) : Nat → List TestGroup → List TestGroup
  | _, [] => []
  | current, g :: rest =>
    (if lo ≤ current ∧ current < hi then [g] else []) ++
      shardWalk lo hi (current + g.tests.length) rest

/-- Runner._filterForCurrentShard (runner.ts): computes the shard's test-position range
and keeps exactly the groups whose first test falls in it.  The JS mutates the group
array in place; here the filtered group list is returned. -/
def filterForCurrentShard (shard : Option Shard) (testGroups : List TestGroup) :
    List TestGroup :=
  match shard with
  | none => testGroups
  | some sh =>
    let shardableTotal := (testGroups.map (fun g => g.tests.length)).sum
    let shardSize := shardableTotal / sh.total
    let extraOne := shardableTotal - shardSize * sh.total
    let currentShard := sh.current - 1
    let lo := shardSize * currentShard + min extraOne currentShard
    let hi := lo + shardSize + (if currentShard < extraOne then 1 else 0)
    shardWalk lo hi 0 testGroups

/-- A minimal concrete test with a given numeric id; sharding reads only group shapes. -/
def mkTest (n : Nat) : TestCase :=
  { id := toString n
    title := toString n
    workerHash := "wh"
    requireFile := "file.spec.ts"
    repeatEachIndex := 0
    projectId := "p"
    parents := []
    runStatus := .passed
    passes := true
    duration := 0 }

/-- The sharding example input: 5 groups of 2 tests each, 10 tests total. -/
def shardExampleGroups : List TestGroup :=
  (List.range 5).map (fun i =>
    { workerHash := "wh"
      requireFile := "file.spec.ts"
      repeatEachIndex := 0
      projectId := "p"
      tests := [mkTest (2 * i), mkTest (2 * i + 1)] })

/-- A project configuration with the fields read by the ABQ compatibility check. -/
structure ProjectConfig where
  name : String
  fullyParallelInternal : Bool
deriving DecidableEq, Repr

instance : Inhabited ProjectConfig := ⟨{ name := "", fullyParallelInternal := false }⟩

/-- The full configuration fields read and written by the ABQ configuration code. -/
structure FullConfig where
  workers : Nat
  shard : Option Shard
  fullyParallel : Bool
  projects : List ProjectConfig
deriving DecidableEq, Repr

/-- abq/index.ts applyAbqConfiguration: when ABQ is active, a worker count other than 1
is overridden to 1 and a configured shard is cleared, each with a console warning.
Returns the updated config together with the warnings printed. -/
def applyAbqConfiguration (config : FullConfig) : FullConfig × List String :=
  let step1 :=
    if config.workers ≠ 1 then
      ({ config with workers := 1 },
        ["Warning: ABQ only supports 1 worker. Overriding configuration value."])
    else (config, [])
  if step1.1.shard.isSome then
    ({ step1.1 with shard := none },
      step1.2 ++
        ["Warning: ABQ does not support Playwright sharding. Overriding configuration value."])
  else step1

/-- The fatal-error collection of checkForConfigurationIncompatibility, after the
config has been rewritten by applyAbqConfiguration: a single configured project is
selected implicitly, otherwise a single --project filter must match; then
fullyParallel must hold on the config and the selected project.  The early JS returns
are the branches that stop at a selection error. -/
def checkProjectErrors (config2 : FullConfig) (projectFilter : List String) :
    List String :=
  if config2.projects.length = 1 then
    let projectConfig := config2.projects.headI
    if config2.fullyParallel = false ∨ projectConfig.fullyParallelInternal = false then
      ["ABQ only supports fullyParallel = true"]
    else []
  else if projectFilter.length = 1 then
    match config2.projects.find? (fun pc => decide (pc.name = projectFilter.headI)) with
    | none =>
      ["Project configuration not found for project " ++ projectFilter.headI ++ "."]
    | some pc =>
      if config2.fullyParallel = false ∨ pc.fullyParallelInternal = false then
        ["ABQ only supports fullyParallel = true"]
      else []
  else
    [toString config2.projects.length ++
      " projects are configured. Specify a single --project per ABQ run."]

/-- abq/index.ts checkForConfigurationIncompatibility: does nothing when ABQ is off;
otherwise first applies applyAbqConfiguration (mutating the config in the JS), then
collects the fatal errors.  Returns the config as mutated and the fatal errors. -/
def checkForConfigurationIncompatibility (abqEnabled : Bool) (config : FullConfig)
    (projectFilter : List String) : FullConfig × List String :=
  if abqEnabled = false then (config, [])
  else
    let config2 := (applyAbqConfiguration config).1
    (config2, checkProjectErrors config2 projectFilter)

/-- Runner._run (runner.ts): the collected configuration-incompatibility errors are
reported and the run ends with status failed, before any test executes, iff that
error list is nonempty. -/
def configCheckAbortsRun (abqEnabled : Bool) (config : FullConfig)
    (projectFilter : List String) : Bool :=
  !((checkForConfigurationIncompatibility abqEnabled config projectFilter).2.isEmpty)

/-- A concrete ABQ-enabled configuration with 4 workers and sharding switched on. -/
def c2Config : FullConfig :=
  { workers := 4
    shard := some { current := 1, total := 2 }
    fullyParallel := true
    projects := [{ name := "chromium", fullyParallelInternal := true }] }

/-- Wire status values of the ABQ protocol (the type tags of Abq.TestResultStatus). -/
inductive WireStatus
  | success
  | timed_out
  | skipped
  | failure
  | error
deriving DecidableEq, Repr

/-- A test result as recorded on a test: status and millisecond duration. -/
structure TestResult where
  status : TestStatus
  duration : ℚ
deriving DecidableEq, Repr

/-- The status translation switch inside AbqDispatcher._submitTestResult. -/
def translateStatus : TestStatus → WireStatus
  | .passed => .success
  | .timedOut => .timed_out
  | .skipped => .skipped
  | .failed => .failure
  | .interrupted => .error

/-- JavaScript Math.trunc: truncation toward zero. -/
def jsMathTrunc (q : ℚ) : ℤ :=
  if 0 ≤ q then ⌊q⌋ else ⌈q⌉

/-- The test_result message written by AbqDispatcher._submitTestResult.  The output
field, whose text is produced by the external formatResultFailure reporter helper, is
an out-of-scope collaborator and is not modelled. -/
structure WireTestResult where
  status : WireStatus
  id : String
  displayName : String
  runtime : ℤ
deriving DecidableEq, Repr

/-- AbqDispatcher._submitTestResult: the message body written to the ABQ channel for a
finished test: translated status, the test id and title, and the duration converted
from milliseconds to nanoseconds with Math.trunc. -/
def submitTestResultMessage (test : TestCase) (result : TestResult) : WireTestResult :=
  { status := translateStatus result.status
    id := test.id
    displayName := test.title
    runtime := jsMathTrunc (result.duration * 1000000) }

/-- A fixed concrete test used to instantiate closed statements. -/
def sampleTest : TestCase := mkTest 0

/-- A reporter event observed by the Reporter collaborator (onTestBegin, onTestEnd). -/
inductive ReporterEvent
  | testBegin (testId : String)
  | testEnd (testId : String) (status : TestStatus)
deriving DecidableEq, Repr

/-- The bookkeeping state of an AbqDispatcher run (part_001): the inherited queue and
single worker slot, the two run-start maps, the per-test appended result lists, plus
the observable traces: reporter events, outbound test_result messages and the console
error log.  finished records whether the run's completion promise has resolved. -/
structure DispatcherState where
  queue : List TestGroup
  queueIndexedByTestId : List (String × TestGroup)
  failedSetupProjectIds : List String
  unusedProjectSetupGroupsByProjectId : List (String × List TestGroup)
  results : List (String × List TestResult)
  events : List ReporterEvent
  outbound : List WireTestResult
  errorLog : List String
  workerBusy : Bool
  finished : Bool
deriving DecidableEq, Repr

/-- The result list of a test (test.results), empty when none has been appended. -/
def getResults (s : DispatcherState) (testId : String) : List TestResult :=
  (omGet s.results testId).getD []

/-- Modelled from the spec: executing one test of a group inside the worker is outside
src/ (it happens in the worker process); per spec sections 4.3 and 6 it emits an
onTestBegin and an onTestEnd reporting event and appends the produced result to the
test's append-only result list. -/
def runOneTest (s : DispatcherState) (t : TestCase) : DispatcherState :=
  { s with
    results := omSet s.results t.id (getResults s t.id ++ [⟨t.runStatus, t.duration⟩])
    events := s.events ++ [.testBegin t.id, .testEnd t.id t.runStatus] }

/-- Modelled from the spec: the base Dispatcher._startJobInWorker is outside src/; per
spec section 4.3 it runs the group's tests to completion in their listed order. -/
def startJobInWorker (g : TestGroup) (s : DispatcherState) : DispatcherState :=
  g.tests.foldl runOneTest s

/-- Modelled from the spec: the base Dispatcher._checkFinished is outside src/; per
spec section 4.3 the run is finished exactly when the queue is empty and no worker
slot is busy, and the condition is re-checked after every completion. -/
def checkFinished (s : DispatcherState) : DispatcherState :=
  if s.queue.isEmpty ∧ s.workerBusy = false then { s with finished := true } else s

/-- The setup loop of AbqDispatcher._scheduleJob (part_001 lines 104-110): run the
pending setup groups in declared order; after a group whose tests are not all ok,
mark that group's project id failed and stop. -/
def runSetupGroups : List TestGroup → DispatcherState → DispatcherState
  | [], s => s
  | sg :: rest, s =>
    let s2 := startJobInWorker sg s
    if sg.tests.any (fun t => t.passes = false) then
      { s2 with failedSetupProjectIds := s2.failedSetupProjectIds ++ [sg.projectId] }
    else runSetupGroups rest s2

/-- One iteration of the skip path of AbqDispatcher._scheduleJob (part_001 lines
116-121): the test gets an appended result reported begun and ended with status
skipped; the test is never executed. -/
def skipOneTest (s : DispatcherState) (t : TestCase) : DispatcherState :=
  { s with
    results := omSet s.results t.id (getResults s t.id ++ [⟨TestStatus.skipped, 0⟩])
    events := s.events ++ [.testBegin t.id, .testEnd t.id .skipped] }

/-- The skip path of AbqDispatcher._scheduleJob: every test of the group is marked
skipped without execution. -/
def skipGroup (g : TestGroup) (s : DispatcherState) : DispatcherState :=
  g.tests.foldl skipOneTest s

/-- AbqDispatcher._scheduleJob lines 127-129: submit the first result of the group's
first test over the channel.  On a dispatched group job.tests[0] and test.results[0]
always exist in JS; the fallback branches here are unreachable in the runs proved
about below. -/
def submitFirstResult (job : TestGroup) (s : DispatcherState) : DispatcherState :=
  match job.tests with
  | [] => s
  | t :: _ =>
    let res := (getResults s t.id).headD ⟨TestStatus.skipped, 0⟩
    { s with outbound := s.outbound ++ [submitTestResultMessage t res] }

/-- The body of one resolved AbqDispatcher._scheduleJob cycle (part_001 lines
100-134), after the job has been found and removed from the index: if the project is
not poisoned, mark the slot busy, run its pending setup groups and drop them from the
pending map regardless of outcome; then either skip the whole group (poisoned) or run
it; submit the first test's result; free the slot; re-check the finished condition.
setupPhase is the first half (part_001 lines 100-112): if the project is not already
poisoned, mark the slot busy, run its pending setup groups and remove them from the
pending map regardless of outcome. -/
def setupPhase (job : TestGroup) (s : DispatcherState) : DispatcherState :=
  if job.projectId ∈ s.failedSetupProjectIds then s
  else
    { runSetupGroups
        ((omGet s.unusedProjectSetupGroupsByProjectId job.projectId).getD [])
        { s with workerBusy := true } with
      unusedProjectSetupGroupsByProjectId :=
        omDelete
          (runSetupGroups
            ((omGet s.unusedProjectSetupGroupsByProjectId job.projectId).getD [])
            { s with workerBusy := true }).unusedProjectSetupGroupsByProjectId
          job.projectId }

/-- The full resolved cycle: setup phase, then skip (poisoned) or run the group, then
submit the first test's result, free the slot and re-check the finished condition. -/
def runCycle (job : TestGroup) (s : DispatcherState) : DispatcherState :=
  checkFinished
    { submitFirstResult job
        (if job.projectId ∈ (setupPhase job s).failedSetupProjectIds then
          skipGroup job (setupPhase job s)
        else startJobInWorker job (setupPhase job s)) with
      workerBusy := false }

/-- The AbqDispatcher._scheduleJob read loop (part_001 lines 73-138), driven by the
finite inbound message sequence: some id is a test_case message, none is the falsy
end-of-stream value returned by Abq.protocolRead.  An exhausted message list leaves
the loop suspended in the read.  The control flow is the source's: end-of-stream
empties the queue and re-checks the finished condition; an id that resolves to no
queued job is logged on the console and the function returns, reading no further
message; a resolved job runs one full cycle and the loop recurses. -/
def scheduleJob : List (Option String) → DispatcherState → DispatcherState
  | [], s => s
  | none :: _, s => checkFinished { s with queue := [] }
  | some testCaseId :: rest, s =>
    match omGet s.queueIndexedByTestId testCaseId with
    | none =>
      { s with
          queueIndexedByTestId := omDelete s.queueIndexedByTestId testCaseId
          errorLog := s.errorLog ++ ["could not find job for test case id " ++ testCaseId] }
    | some job =>
      scheduleJob rest
        (runCycle job
          { s with queueIndexedByTestId := omDelete s.queueIndexedByTestId testCaseId })

/-- One step of building the queue index in AbqDispatcher.run (part_001 lines 54-55):
the group is stored under its first test's id.  Indexing reads testGroup.tests[0],
which exists for every real group. -/
def indexStep (m : List (String × TestGroup)) (g : TestGroup) :
    List (String × TestGroup) :=
  match g.tests with
  | [] => m
  | t :: _ => omSet m t.id g

/-- One step of bucketing the project setup groups by project id in declared order
(part_001 lines 57-64). -/
def setupPoolStep (m : List (String × List TestGroup)) (sg : TestGroup) :
    List (String × List TestGroup) :=
  omSet m sg.projectId ((omGet m sg.projectId).getD [] ++ [sg])

/-- AbqDispatcher.run (part_001 lines 45-71): allocate the single worker slot, index
the queue by each group's first test id, bucket the project setup groups by project
id, then check the finished condition and drive the scheduling loop. -/
def initState (testGroups projectSetupGroups : List TestGroup) : DispatcherState :=
  { queue := testGroups
    queueIndexedByTestId := testGroups.foldl indexStep []
    failedSetupProjectIds := []
    unusedProjectSetupGroupsByProjectId := projectSetupGroups.foldl setupPoolStep []
    results := []
    events := []
    outbound := []
    errorLog := []
    workerBusy := false
    finished := false }

/-- A complete remote-coordinated dispatcher run over a finite inbound sequence. -/
def runAbqDispatcher (testGroups projectSetupGroups : List TestGroup)
    (messages : List (Option String)) : DispatcherState :=
  scheduleJob messages (checkFinished (initState testGroups projectSetupGroups))

/-- The id of a group's first test, used as its key in the dispatcher index. -/
def firstTestId (g : TestGroup) : Option String :=
  g.tests.head?.map (fun t => t.id)

/-- Whether a reporter event concerns the test with the given id. -/
def eventMentions (tid : String) : ReporterEvent → Bool
  | .testBegin i => decide (i = tid)
  | .testEnd i _ => decide (i = tid)

/-- All test ids reachable through the pending setup-group pool. -/
def unusedTestIds (s : DispatcherState) : List String :=
  (s.unusedProjectSetupGroupsByProjectId.map (fun p => p.2)).flatten.flatMap
    (fun g => g.tests.map (fun t => t.id))

/-- A concrete named test under the given project, passing or failing as requested
when executed. -/
def mkTestNamed (pid tid : String) (ok : Bool) : TestCase :=
  { id := tid
    title := tid
    workerHash := "wh"
    requireFile := "file.spec.ts"
    repeatEachIndex := 0
    projectId := pid
    parents := []
    runStatus := if ok then .passed else .failed
    passes := ok
    duration := 1 }

/-- A concrete group for dispatcher runs: one test with the given id under the given
project. -/
def mkGroup1 (pid tid : String) (ok : Bool) : TestGroup :=
  { workerHash := "wh"
    requireFile := "file.spec.ts"
    repeatEachIndex := 0
    projectId := pid
    tests := [mkTestNamed pid tid ok] }

/-- createGroup(test) inside createTestGroups: a fresh empty group carrying the
test's bucket fields. -/
def createGroup (t : TestCase) : TestGroup :=
  { workerHash := t.workerHash
    requireFile := t.requireFile
    repeatEachIndex := t.repeatEachIndex
    projectId := t.projectId
    tests := [] }

/-- JS group.tests.push(test). -/
def pushTest (g : TestGroup) (t : TestCase) : TestGroup :=
  { g with tests := g.tests ++ [t] }

/-- The upward ancestry walk of createTestGroups (runner.ts lines 950-958): whether
the test sits inside a parallel suite, the outermost serial ancestor (the last serial
suite seen when walking from the immediate parent upward), and whether any ancestor
declares a beforeAll or afterAll hook. -/
def ancestryWalk (t : TestCase) : Bool × Option Nat × Bool :=
  t.parents.foldl
    (fun acc p =>
      (acc.1 || decide (p.parallelMode = .parallelMode),
        if p.parallelMode = .serial then some p.suiteId else acc.2.1,
        acc.2.2 || p.hasBeforeAllOrAfterAllHooks))
    (false, none, false)

/-- The per-(workerHash, requireFile) bucket of createTestGroups: the sequential
general group, the independently schedulable parallel groups keyed by outermost
serial suite or by the test itself (object identity in JS, suite id or test id
here), and the bucket-wide parallel-with-hooks pool. -/
structure GroupBuckets where
  general : TestGroup
  parallelGroups : List ((Nat ⊕ String) × TestGroup)
  parallelWithHooks : TestGroup
deriving DecidableEq, Repr

/-- The key of a test's parallel group: the outermost serial ancestor if any,
otherwise the test itself (object identity in JS, ids here). -/
def testKey (t : TestCase) : Nat ⊕ String :=
  match (ancestryWalk t).2.1 with
  | some sid => Sum.inl sid
  | none => Sum.inr t.id

/-- The fresh bucket record created for a new (workerHash, requireFile) pair
(runner.ts lines 940-947). -/
def defaultBuckets (t : TestCase) : GroupBuckets :=
  { general := createGroup t
    parallelGroups := []
    parallelWithHooks := createGroup t }

/-- Routing one test into its bucket record (runner.ts lines 960-974): the
parallel-with-hooks pool when inside a parallel suite with beforeAll/afterAll hooks
and no serial ancestor, its keyed parallel group when inside a parallel suite
otherwise, and the general group when not inside a parallel suite. -/
def routeTest (b0 : GroupBuckets) (t : TestCase) : GroupBuckets :=
  if (ancestryWalk t).1 then
    if (ancestryWalk t).2.2 && (ancestryWalk t).2.1.isNone then
      { b0 with parallelWithHooks := pushTest b0.parallelWithHooks t }
    else
      { b0 with
          parallelGroups :=
            omSet b0.parallelGroups (testKey t)
              (pushTest ((omGet b0.parallelGroups (testKey t)).getD (createGroup t)) t) }
  else { b0 with general := pushTest b0.general t }

/-- One iteration of the main loop of createTestGroups (runner.ts lines 932-976):
find or create the test's bucket, classify the test by its ancestry walk, and push
it into the general group, its parallel group, or the parallel-with-hooks pool. -/
def addTestToGroups (gs : List (String × List (String × GroupBuckets))) (t : TestCase) :
    List (String × List (String × GroupBuckets)) :=
  omSet gs t.workerHash
    (omSet ((omGet gs t.workerHash).getD []) t.requireFile
      (routeTest
        ((omGet ((omGet gs t.workerHash).getD []) t.requireFile).getD (defaultBuckets t))
        t))

/-- The trailing loop of createTestGroups (runner.ts lines 990-997) splitting the
parallel-with-hooks pool: a new group, seeded by createGroup on the triggering test,
starts whenever the current group has reached the chunk size. -/
def hooksChunks (size : Nat) (seed : TestCase) (acc : List TestCase) :
    List TestCase → List TestGroup
  | [] => [{ createGroup seed with tests := acc }]
  | t :: ts =>
    if acc.length ≥ size then
      { createGroup seed with tests := acc } :: hooksChunks size t [t] ts
    else hooksChunks size seed (acc ++ [t]) ts

/-- Emission of one bucket (runner.ts lines 980-998): the general group when it has
tests, then the parallel groups in first-seen order, then the hooks pool in chunks of
Math.ceil(length / workers); the worker count is at least 1 (enforced upstream). -/
def emitBuckets (workers : Nat) (b : GroupBuckets) : List TestGroup :=
  (if b.general.tests.length ≠ 0 then [b.general] else [])
    ++ b.parallelGroups.map (fun p => p.2)
    ++ match b.parallelWithHooks.tests with
       | [] => []
       | t :: ts =>
         hooksChunks ((b.parallelWithHooks.tests.length + workers - 1) / workers) t [t] ts

/-- createTestGroups (runner.ts lines 895-1001): bucket every test of every project
suite by workerHash then requireFile in insertion order, route each test by its
ancestry, then emit the buckets in insertion order.  A project suite is given by its
ordered allTests() sequence. -/
def createTestGroups (projectSuites : List (List TestCase)) (workers : Nat) :
    List TestGroup :=
  let gs := projectSuites.flatten.foldl addTestToGroups []
  gs.flatMap (fun wh => wh.2.flatMap (fun rf => emitBuckets workers rf.2))

/-- The tests held in one bucket, in storage order. -/
def bucketTests (b : GroupBuckets) : List TestCase :=
  b.general.tests ++ (b.parallelGroups.map (fun p => p.2)).flatMap (fun g => g.tests)
    ++ b.parallelWithHooks.tests

/-- The multiset of tests inside the parallel groups of one bucket. -/
def groupsM (l : List ((Nat ⊕ String) × TestGroup)) : Multiset TestCase :=
  (l.map (fun p => (p.2.tests : Multiset TestCase))).sum

/-- The multiset of tests inside one bucket. -/
def bucketM (b : GroupBuckets) : Multiset TestCase :=
  (b.general.tests : Multiset TestCase) + groupsM b.parallelGroups
    + (b.parallelWithHooks.tests : Multiset TestCase)

/-- The multiset of tests inside one workerHash entry. -/
def innerM (m : List (String × GroupBuckets)) : Multiset TestCase :=
  (m.map (fun p => bucketM p.2)).sum

/-- The multiset of tests inside the whole two-level bucket structure. -/
def structM (gs : List (String × List (String × GroupBuckets))) : Multiset TestCase :=
  (gs.map (fun p => innerM p.2)).sum

/-- The bucket invariant on one group: its identifying fields are the bucket keys,
its repeat index comes from some test of the input sharing its worker hash, and its
member tests are input tests carrying the bucket keys. -/
def GInv (allT : List TestCase) (wh rf : String) (g : TestGroup) : Prop :=
  g.workerHash = wh ∧ g.requireFile = rf
  ∧ (∃ t0 ∈ allT, t0.workerHash = wh ∧ t0.repeatEachIndex = g.repeatEachIndex)
  ∧ ∀ u ∈ g.tests, u ∈ allT ∧ u.workerHash = wh ∧ u.requireFile = rf

/-- The bucket invariant on a whole bucket record. -/
def BucketInv (allT : List TestCase) (wh rf : String) (b : GroupBuckets) : Prop :=
  GInv allT wh rf b.general
  ∧ (∀ p ∈ b.parallelGroups, GInv allT wh rf p.2)
  ∧ GInv allT wh rf b.parallelWithHooks

/-- The bucket invariant on the whole two-level structure. -/
def StructInv (allT : List TestCase)
    (gs : List (String × List (String × GroupBuckets))) : Prop :=
  ∀ whp ∈ gs, ∀ rfp ∈ whp.2, BucketInv allT whp.1 rfp.1 rfp.2

/-- Helper: lookup on an empty map. -/
lemma omGet_nil {κ ν : Type} [DecidableEq κ] (k : κ) :
    omGet ([] : List (κ × ν)) k = none := rfl

/-- Helper: lookup on a cons cell. -/
lemma omGet_cons {κ ν : Type} [DecidableEq κ] (p : κ × ν) (rest : List (κ × ν)) (k : κ) :
    omGet (p :: rest) k = if p.1 = k then some p.2 else omGet rest k := by
  by_cases h : p.1 = k
  · simp [omGet, List.find?_cons_of_pos, h]
  · simp only [omGet, if_neg h]
    rw [List.find?_cons_of_neg]
    simp [h]

/-- Helper: lookup after a map write. -/
lemma omGet_set {κ ν : Type} [DecidableEq κ] (m : List (κ × ν)) (k k2 : κ) (v : ν) :
    omGet (omSet m k v) k2 = if k2 = k then some v else omGet m k2 := by
  induction m with
  | nil =>
    by_cases h : k2 = k
    · subst h
      simp [omSet, omGet_cons]
    · have h2 : ¬ k = k2 := fun he => h he.symm
      simp [omSet, omGet_cons, h, h2, omGet_nil]
  | cons p rest ih =>
    by_cases hp : p.1 = k
    · by_cases h : k2 = k
      · subst h
        simp [omSet, hp, omGet_cons]
      · have h2 : ¬ k = k2 := fun he => h he.symm
        have hp2 : ¬ p.1 = k2 := by
          rw [hp]
          exact h2
        simp [omSet, hp, omGet_cons, h, h2, hp2]
    · by_cases h : k2 = k
      · subst h
        simp [omSet, hp, omGet_cons, ih]
      · by_cases hp2 : p.1 = k2 <;> simp [omSet, hp, omGet_cons, h, hp2, ih]

/-- Helper: lookup after a map delete. -/
lemma omGet_delete {κ ν : Type} [DecidableEq κ] (m : List (κ × ν)) (k k2 : κ) :
    omGet (omDelete m k) k2 = if k2 = k then none else omGet m k2 := by
  induction m with
  | nil => simp [omDelete, omGet_nil]
  | cons p rest ih =>
    by_cases hp : p.1 = k
    · by_cases h : k2 = k
      · subst h
        simp_all [omDelete, omGet_cons]
      · have hp2 : ¬ p.1 = k2 := by
          rw [hp]
          exact fun he => h he.symm
        simp_all [omDelete, omGet_cons, hp2]
    · by_cases h2 : p.1 = k2
      · by_cases h : k2 = k
        · exact absurd (h2.trans h) hp
        · simp_all [omDelete, omGet_cons]
      · by_cases h : k2 = k <;> simp_all [omDelete, omGet_cons]

/-- Helper: a looked-up value is among the map's values. -/
lemma omGet_mem_values {κ ν : Type} [DecidableEq κ] (m : List (κ × ν)) (k : κ) (v : ν)
    (h : omGet m k = some v) : v ∈ m.map (fun p => p.2) := by
  induction m with
  | nil => simp [omGet_nil] at h
  | cons p rest ih =>
    rw [omGet_cons] at h
    by_cases hp : p.1 = k
    · rw [if_pos hp] at h
      injection h with hv
      simp [hv]
    · rw [if_neg hp] at h
      simp only [List.map_cons, List.mem_cons]
      right
      exact ih h

/-- Helper: deleting a key keeps the remaining values among the old ones. -/
lemma omDelete_values_sub {κ ν : Type} [DecidableEq κ] (m : List (κ × ν)) (k : κ) (v : ν)
    (h : v ∈ (omDelete m k).map (fun p => p.2)) : v ∈ m.map (fun p => p.2) := by
  obtain ⟨p, hp, he⟩ := List.mem_map.mp h
  exact List.mem_map.mpr ⟨p, List.mem_of_mem_filter hp, he⟩

/-- Helper: the executed-tests fold leaves every field except results and events
unchanged. -/
lemma runFold_frame (ts : List TestCase) (s : DispatcherState) :
    (ts.foldl runOneTest s).queue = s.queue
    ∧ (ts.foldl runOneTest s).queueIndexedByTestId = s.queueIndexedByTestId
    ∧ (ts.foldl runOneTest s).failedSetupProjectIds = s.failedSetupProjectIds
    ∧ (ts.foldl runOneTest s).unusedProjectSetupGroupsByProjectId
        = s.unusedProjectSetupGroupsByProjectId
    ∧ (ts.foldl runOneTest s).outbound = s.outbound
    ∧ (ts.foldl runOneTest s).errorLog = s.errorLog
    ∧ (ts.foldl runOneTest s).workerBusy = s.workerBusy
    ∧ (ts.foldl runOneTest s).finished = s.finished := by
  induction ts generalizing s with
  | nil => simp
  | cons t ts ih =>
    simpa [runOneTest] using ih (runOneTest s t)

/-- Helper: the skip fold leaves every field except results and events unchanged. -/
lemma skipFold_frame (ts : List TestCase) (s : DispatcherState) :
    (ts.foldl skipOneTest s).queue = s.queue
    ∧ (ts.foldl skipOneTest s).queueIndexedByTestId = s.queueIndexedByTestId
    ∧ (ts.foldl skipOneTest s).failedSetupProjectIds = s.failedSetupProjectIds
    ∧ (ts.foldl skipOneTest s).unusedProjectSetupGroupsByProjectId
        = s.unusedProjectSetupGroupsByProjectId
    ∧ (ts.foldl skipOneTest s).outbound = s.outbound
    ∧ (ts.foldl skipOneTest s).errorLog = s.errorLog
    ∧ (ts.foldl skipOneTest s).workerBusy = s.workerBusy
    ∧ (ts.foldl skipOneTest s).finished = s.finished := by
  induction ts generalizing s with
  | nil => simp
  | cons t ts ih =>
    simpa [skipOneTest] using ih (skipOneTest s t)

/-- Helper: results recorded by the executed-tests fold, per test id. -/
lemma runFold_results (ts : List TestCase) (s : DispatcherState) (tid : String) :
    getResults (ts.foldl runOneTest s) tid
      = getResults s tid
        ++ (ts.filter (fun t => decide (t.id = tid))).map
            (fun t => ({ status := t.runStatus, duration := t.duration } : TestResult)) := by
  induction ts generalizing s with
  | nil => simp
  | cons t ts ih =>
    simp only [List.foldl_cons, ih]
    by_cases h : t.id = tid
    · subst h
      simp [runOneTest, getResults, omGet_set]
    · have h2 : ¬ tid = t.id := fun he => h he.symm
      simp [runOneTest, getResults, omGet_set, h, h2]

/-- Helper: results recorded by the skip fold, per test id. -/
lemma skipFold_results (ts : List TestCase) (s : DispatcherState) (tid : String) :
    getResults (ts.foldl skipOneTest s) tid
      = getResults s tid
        ++ (ts.filter (fun t => decide (t.id = tid))).map
            (fun _ => ({ status := .skipped, duration := 0 } : TestResult)) := by
  induction ts generalizing s with
  | nil => simp
  | cons t ts ih =>
    simp only [List.foldl_cons, ih]
    by_cases h : t.id = tid
    · subst h
      simp [skipOneTest, getResults, omGet_set]
    · have h2 : ¬ tid = t.id := fun he => h he.symm
      simp [skipOneTest, getResults, omGet_set, h, h2]

/-- Helper: events emitted by the executed-tests fold. -/
lemma runFold_events (ts : List TestCase) (s : DispatcherState) :
    (ts.foldl runOneTest s).events
      = s.events
        ++ ts.flatMap (fun t =>
            [ReporterEvent.testBegin t.id, ReporterEvent.testEnd t.id t.runStatus]) := by
  induction ts generalizing s with
  | nil => simp
  | cons t ts ih =>
    rw [List.foldl_cons, ih (runOneTest s t)]
    simp [runOneTest, List.append_assoc]

/-- Helper: events emitted by the skip fold. -/
lemma skipFold_events (ts : List TestCase) (s : DispatcherState) :
    (ts.foldl skipOneTest s).events
      = s.events
        ++ ts.flatMap (fun t =>
            [ReporterEvent.testBegin t.id, ReporterEvent.testEnd t.id .skipped]) := by
  induction ts generalizing s with
  | nil => simp
  | cons t ts ih =>
    rw [List.foldl_cons, ih (skipOneTest s t)]
    simp [skipOneTest, List.append_assoc]

/-- Helper: startJobInWorker frame, on the group form. -/
lemma startJob_frame (g : TestGroup) (s : DispatcherState) :
    (startJobInWorker g s).queue = s.queue
    ∧ (startJobInWorker g s).queueIndexedByTestId = s.queueIndexedByTestId
    ∧ (startJobInWorker g s).failedSetupProjectIds = s.failedSetupProjectIds
    ∧ (startJobInWorker g s).unusedProjectSetupGroupsByProjectId
        = s.unusedProjectSetupGroupsByProjectId
    ∧ (startJobInWorker g s).outbound = s.outbound
    ∧ (startJobInWorker g s).errorLog = s.errorLog
    ∧ (startJobInWorker g s).workerBusy = s.workerBusy
    ∧ (startJobInWorker g s).finished = s.finished :=
  runFold_frame g.tests s

/-- Helper: skipGroup frame, on the group form. -/
lemma skipGroup_frame (g : TestGroup) (s : DispatcherState) :
    (skipGroup g s).queue = s.queue
    ∧ (skipGroup g s).queueIndexedByTestId = s.queueIndexedByTestId
    ∧ (skipGroup g s).failedSetupProjectIds = s.failedSetupProjectIds
    ∧ (skipGroup g s).unusedProjectSetupGroupsByProjectId
        = s.unusedProjectSetupGroupsByProjectId
    ∧ (skipGroup g s).outbound = s.outbound
    ∧ (skipGroup g s).errorLog = s.errorLog
    ∧ (skipGroup g s).workerBusy = s.workerBusy
    ∧ (skipGroup g s).finished = s.finished :=
  skipFold_frame g.tests s

/-- Helper: results written by startJobInWorker. -/
lemma startJob_results (g : TestGroup) (s : DispatcherState) (tid : String) :
    getResults (startJobInWorker g s) tid
      = getResults s tid
        ++ (g.tests.filter (fun t => decide (t.id = tid))).map
            (fun t => ({ status := t.runStatus, duration := t.duration } : TestResult)) :=
  runFold_results g.tests s tid

/-- Helper: results written by skipGroup. -/
lemma skipGroup_results (g : TestGroup) (s : DispatcherState) (tid : String) :
    getResults (skipGroup g s) tid
      = getResults s tid
        ++ (g.tests.filter (fun t => decide (t.id = tid))).map
            (fun _ => ({ status := .skipped, duration := 0 } : TestResult)) :=
  skipFold_results g.tests s tid

/-- Helper: events emitted by startJobInWorker. -/
lemma startJob_events (g : TestGroup) (s : DispatcherState) :
    (startJobInWorker g s).events
      = s.events
        ++ g.tests.flatMap (fun t =>
            [ReporterEvent.testBegin t.id, ReporterEvent.testEnd t.id t.runStatus]) :=
  runFold_events g.tests s

/-- Helper: events emitted by skipGroup. -/
lemma skipGroup_events (g : TestGroup) (s : DispatcherState) :
    (skipGroup g s).events
      = s.events
        ++ g.tests.flatMap (fun t =>
            [ReporterEvent.testBegin t.id, ReporterEvent.testEnd t.id .skipped]) :=
  skipFold_events g.tests s

/-- Helper: checkFinished changes only the finished flag. -/
lemma checkFinished_fields (s : DispatcherState) :
    (checkFinished s).queue = s.queue
    ∧ (checkFinished s).queueIndexedByTestId = s.queueIndexedByTestId
    ∧ (checkFinished s).failedSetupProjectIds = s.failedSetupProjectIds
    ∧ (checkFinished s).unusedProjectSetupGroupsByProjectId
        = s.unusedProjectSetupGroupsByProjectId
    ∧ (checkFinished s).results = s.results
    ∧ (checkFinished s).events = s.events
    ∧ (checkFinished s).outbound = s.outbound
    ∧ (checkFinished s).errorLog = s.errorLog
    ∧ (checkFinished s).workerBusy = s.workerBusy := by
  unfold checkFinished
  split <;> simp

/-- Helper: the finished flag after checkFinished. -/
lemma checkFinished_finished (s : DispatcherState) :
    (checkFinished s).finished = (s.finished || (s.queue.isEmpty && !s.workerBusy)) := by
  cases hq : s.queue.isEmpty <;> cases hb : s.workerBusy <;>
    simp [checkFinished, hq, hb]

/-- Helper: the halting equation of the setup loop on a failing group. -/
lemma runSetupGroups_cons_fail (sg : TestGroup) (rest : List TestGroup)
    (s : DispatcherState) (h : sg.tests.any (fun t => t.passes = false) = true) :
    runSetupGroups (sg :: rest) s
      = { startJobInWorker sg s with
          failedSetupProjectIds :=
            (startJobInWorker sg s).failedSetupProjectIds ++ [sg.projectId] } := by
  simp only [runSetupGroups]
  rw [if_pos h]

/-- Helper: the continuing equation of the setup loop on a passing group. -/
lemma runSetupGroups_cons_ok (sg : TestGroup) (rest : List TestGroup)
    (s : DispatcherState) (h : sg.tests.any (fun t => t.passes = false) = false) :
    runSetupGroups (sg :: rest) s = runSetupGroups rest (startJobInWorker sg s) := by
  simp only [runSetupGroups]
  rw [if_neg (by rw [h]; exact Bool.false_ne_true)]

/-- Helper: runSetupGroups leaves every field except results, events and the failed
set unchanged. -/
lemma setupFold_frame (l : List TestGroup) (s : DispatcherState) :
    (runSetupGroups l s).queue = s.queue
    ∧ (runSetupGroups l s).queueIndexedByTestId = s.queueIndexedByTestId
    ∧ (runSetupGroups l s).unusedProjectSetupGroupsByProjectId
        = s.unusedProjectSetupGroupsByProjectId
    ∧ (runSetupGroups l s).outbound = s.outbound
    ∧ (runSetupGroups l s).errorLog = s.errorLog
    ∧ (runSetupGroups l s).workerBusy = s.workerBusy
    ∧ (runSetupGroups l s).finished = s.finished := by
  induction l generalizing s with
  | nil => simp [runSetupGroups]
  | cons sg rest ih =>
    obtain ⟨f1, f2, f3, f4, f5, f6, f7, f8⟩ := startJob_frame sg s
    cases hfail : sg.tests.any (fun t => t.passes = false)
    · rw [runSetupGroups_cons_ok sg rest s hfail]
      obtain ⟨g1, g2, g3, g4, g5, g6, g7⟩ := ih (startJobInWorker sg s)
      exact ⟨g1.trans f1, g2.trans f2, g3.trans f4, g4.trans f5, g5.trans f6,
        g6.trans f7, g7.trans f8⟩
    · rw [runSetupGroups_cons_fail sg rest s hfail]
      exact ⟨f1, f2, f4, f5, f6, f7, f8⟩

/-- Helper: a test id outside the given setup groups is untouched by the setup loop. -/
lemma setupFold_untouched (l : List TestGroup) (s : DispatcherState) (tid : String)
    (h : ∀ g ∈ l, ∀ t ∈ g.tests, t.id ≠ tid) :
    getResults (runSetupGroups l s) tid = getResults s tid
    ∧ (runSetupGroups l s).events.filter (eventMentions tid)
        = s.events.filter (eventMentions tid) := by
  induction l generalizing s with
  | nil => simp [runSetupGroups]
  | cons sg rest ih =>
    have hfilter : sg.tests.filter (fun t => decide (t.id = tid)) = [] := by
      rw [List.filter_eq_nil_iff]
      intro t ht
      simp [h sg (List.mem_cons_self sg rest) t ht]
    have hres : getResults (startJobInWorker sg s) tid = getResults s tid := by
      rw [startJob_results, hfilter]
      simp
    have hev : (startJobInWorker sg s).events.filter (eventMentions tid)
        = s.events.filter (eventMentions tid) := by
      rw [startJob_events, List.filter_append]
      have : (sg.tests.flatMap (fun t =>
          [ReporterEvent.testBegin t.id, ReporterEvent.testEnd t.id t.runStatus])).filter
            (eventMentions tid) = [] := by
        rw [List.filter_eq_nil_iff]
        intro ev hevm
        obtain ⟨t, ht, hevt⟩ := List.mem_flatMap.mp hevm
        have hne := h sg (List.mem_cons_self sg rest) t ht
        simp only [List.mem_cons, List.not_mem_nil, or_false] at hevt
        rcases hevt with h1 | h1 <;> subst h1 <;> simp [eventMentions, hne]
      rw [this]
      simp
    cases hfail : sg.tests.any (fun t => t.passes = false)
    · rw [runSetupGroups_cons_ok sg rest s hfail]
      have hrest := ih (startJobInWorker sg s)
        (fun g hg t ht => h g (List.mem_cons_of_mem sg hg) t ht)
      exact ⟨hrest.1.trans hres, hrest.2.trans hev⟩
    · rw [runSetupGroups_cons_fail sg rest s hfail]
      exact ⟨by simpa [getResults] using hres, by simpa using hev⟩

/-- Helper: submitFirstResult frame: everything except outbound is unchanged. -/
lemma submit_frame (job : TestGroup) (s : DispatcherState) :
    (submitFirstResult job s).queue = s.queue
    ∧ (submitFirstResult job s).queueIndexedByTestId = s.queueIndexedByTestId
    ∧ (submitFirstResult job s).failedSetupProjectIds = s.failedSetupProjectIds
    ∧ (submitFirstResult job s).unusedProjectSetupGroupsByProjectId
        = s.unusedProjectSetupGroupsByProjectId
    ∧ (submitFirstResult job s).results = s.results
    ∧ (submitFirstResult job s).events = s.events
    ∧ (submitFirstResult job s).errorLog = s.errorLog
    ∧ (submitFirstResult job s).workerBusy = s.workerBusy
    ∧ (submitFirstResult job s).finished = s.finished := by
  unfold submitFirstResult
  split <;> simp

/-- Helper: the message appended by submitFirstResult on a nonempty group. -/
lemma submit_outbound (job : TestGroup) (s : DispatcherState) (t : TestCase)
    (tl : List TestCase) (hj : job.tests = t :: tl) :
    (submitFirstResult job s).outbound
      = s.outbound
        ++ [submitTestResultMessage t
            ((getResults s t.id).headD { status := .skipped, duration := 0 })] := by
  simp [submitFirstResult, hj]

/-- Helper: submitFirstResult adds no message for a test id outside the group. -/
lemma submit_outbound_untouched (job : TestGroup) (s : DispatcherState) (tid : String)
    (h : ∀ t ∈ job.tests, t.id ≠ tid) :
    (submitFirstResult job s).outbound.filter (fun m => decide (m.id = tid))
      = s.outbound.filter (fun m => decide (m.id = tid)) := by
  cases hj : job.tests with
  | nil => simp [submitFirstResult, hj]
  | cons t tl =>
    rw [submit_outbound job s t tl hj, List.filter_append]
    have ht : t.id ≠ tid := h t (by rw [hj]; exact List.mem_cons_self t tl)
    simp [submitTestResultMessage, ht]

/-- Helper: a test id outside a group is untouched by running the group. -/
lemma startJob_untouched (g : TestGroup) (s : DispatcherState) (tid : String)
    (h : ∀ t ∈ g.tests, t.id ≠ tid) :
    getResults (startJobInWorker g s) tid = getResults s tid
    ∧ (startJobInWorker g s).events.filter (eventMentions tid)
        = s.events.filter (eventMentions tid) := by
  have hfilter : g.tests.filter (fun t => decide (t.id = tid)) = [] := by
    rw [List.filter_eq_nil_iff]
    intro t ht
    simp [h t ht]
  constructor
  · rw [startJob_results, hfilter]
    simp
  · rw [startJob_events, List.filter_append]
    have hnil : (g.tests.flatMap (fun t =>
        [ReporterEvent.testBegin t.id, ReporterEvent.testEnd t.id t.runStatus])).filter
          (eventMentions tid) = [] := by
      rw [List.filter_eq_nil_iff]
      intro ev hevm
      obtain ⟨t, ht, hevt⟩ := List.mem_flatMap.mp hevm
      have hne := h t ht
      simp only [List.mem_cons, List.not_mem_nil, or_false] at hevt
      rcases hevt with h1 | h1 <;> subst h1 <;> simp [eventMentions, hne]
    rw [hnil]
    simp

/-- Helper: a test id outside a group is untouched by skipping the group. -/
lemma skipGroup_untouched (g : TestGroup) (s : DispatcherState) (tid : String)
    (h : ∀ t ∈ g.tests, t.id ≠ tid) :
    getResults (skipGroup g s) tid = getResults s tid
    ∧ (skipGroup g s).events.filter (eventMentions tid)
        = s.events.filter (eventMentions tid) := by
  have hfilter : g.tests.filter (fun t => decide (t.id = tid)) = [] := by
    rw [List.filter_eq_nil_iff]
    intro t ht
    simp [h t ht]
  constructor
  · rw [skipGroup_results, hfilter]
    simp
  · rw [skipGroup_events, List.filter_append]
    have hnil : (g.tests.flatMap (fun t =>
        [ReporterEvent.testBegin t.id, ReporterEvent.testEnd t.id .skipped])).filter
          (eventMentions tid) = [] := by
      rw [List.filter_eq_nil_iff]
      intro ev hevm
      obtain ⟨t, ht, hevt⟩ := List.mem_flatMap.mp hevm
      have hne := h t ht
      simp only [List.mem_cons, List.not_mem_nil, or_false] at hevt
      rcases hevt with h1 | h1 <;> subst h1 <;> simp [eventMentions, hne]
    rw [hnil]
    simp

/-- Helper: membership in the pending-setup test ids. -/
lemma mem_unusedTestIds (s : DispatcherState) (x : String) :
    x ∈ unusedTestIds s ↔
      ∃ l ∈ s.unusedProjectSetupGroupsByProjectId.map (fun p => p.2),
        ∃ g ∈ l, ∃ t ∈ g.tests, t.id = x := by
  simp only [unusedTestIds, List.mem_flatMap, List.mem_flatten, List.mem_map]
  constructor
  · rintro ⟨g, ⟨l, ⟨⟨p, hp, rfl⟩, hgl⟩⟩, ⟨t, ht, rfl⟩⟩
    exact ⟨p.2, ⟨p, hp, rfl⟩, g, hgl, t, ht, rfl⟩
  · rintro ⟨l, ⟨p, hp, rfl⟩, g, hgl, t, ht, rfl⟩
    exact ⟨g, ⟨p.2, ⟨⟨p, hp, rfl⟩, hgl⟩⟩, ⟨t, ht, rfl⟩⟩

/-- Helper: the setup phase leaves queue, index, outbound, error log and finished
unchanged. -/
lemma setupPhase_frame (job : TestGroup) (s : DispatcherState) :
    (setupPhase job s).queue = s.queue
    ∧ (setupPhase job s).queueIndexedByTestId = s.queueIndexedByTestId
    ∧ (setupPhase job s).outbound = s.outbound
    ∧ (setupPhase job s).errorLog = s.errorLog
    ∧ (setupPhase job s).finished = s.finished := by
  unfold setupPhase
  by_cases hf : job.projectId ∈ s.failedSetupProjectIds
  · rw [if_pos hf]
    exact ⟨rfl, rfl, rfl, rfl, rfl⟩
  · rw [if_neg hf]
    obtain ⟨q1, q2, q3, q4, q5, q6, q7⟩ :=
      setupFold_frame ((omGet s.unusedProjectSetupGroupsByProjectId job.projectId).getD [])
        { s with workerBusy := true }
    exact ⟨q1, q2, q4, q5, q7⟩

/-- Helper: the setup phase only shrinks the set of pending setup-pool values. -/
lemma setupPhase_unused_values (job : TestGroup) (s : DispatcherState)
    (v : List TestGroup)
    (hv : v ∈ (setupPhase job s).unusedProjectSetupGroupsByProjectId.map (fun p => p.2)) :
    v ∈ s.unusedProjectSetupGroupsByProjectId.map (fun p => p.2) := by
  unfold setupPhase at hv
  by_cases hf : job.projectId ∈ s.failedSetupProjectIds
  · rw [if_pos hf] at hv
    exact hv
  · rw [if_neg hf] at hv
    have h2 := omDelete_values_sub _ job.projectId v hv
    obtain ⟨_, _, q3, _, _, _, _⟩ :=
      setupFold_frame ((omGet s.unusedProjectSetupGroupsByProjectId job.projectId).getD [])
        { s with workerBusy := true }
    rw [q3] at h2
    exact h2

/-- Helper: a test id outside the pending setup pool is untouched by the setup
phase. -/
lemma setupPhase_untouched (job : TestGroup) (s : DispatcherState) (tid : String)
    (hunused : tid ∉ unusedTestIds s) :
    getResults (setupPhase job s) tid = getResults s tid
    ∧ (setupPhase job s).events.filter (eventMentions tid)
        = s.events.filter (eventMentions tid) := by
  unfold setupPhase
  by_cases hf : job.projectId ∈ s.failedSetupProjectIds
  · rw [if_pos hf]
    exact ⟨rfl, rfl⟩
  · rw [if_neg hf]
    have hl : ∀ g ∈ (omGet s.unusedProjectSetupGroupsByProjectId job.projectId).getD [],
        ∀ t ∈ g.tests, t.id ≠ tid := by
      intro g hg t ht heq
      apply hunused
      rw [mem_unusedTestIds]
      cases homg : omGet s.unusedProjectSetupGroupsByProjectId job.projectId with
      | none =>
        rw [homg] at hg
        simp at hg
      | some l0 =>
        rw [homg] at hg
        exact ⟨l0, omGet_mem_values _ _ _ homg, g, hg, t, ht, heq⟩
    obtain ⟨hres, hev⟩ :=
      setupFold_untouched ((omGet s.unusedProjectSetupGroupsByProjectId job.projectId).getD [])
        { s with workerBusy := true } tid hl
    exact ⟨hres, hev⟩

/-- Helper: the tail of a resolved cycle does not touch a test id outside the job. -/
lemma finishSubmit_untouched (job : TestGroup) (s2 : DispatcherState) (tid : String)
    (hjob : ∀ t ∈ job.tests, t.id ≠ tid) :
    getResults (checkFinished { submitFirstResult job s2 with workerBusy := false }) tid
        = getResults s2 tid
    ∧ (checkFinished { submitFirstResult job s2 with workerBusy := false }).events.filter
        (eventMentions tid) = s2.events.filter (eventMentions tid)
    ∧ (checkFinished { submitFirstResult job s2 with workerBusy := false }).outbound.filter
        (fun m => decide (m.id = tid))
        = s2.outbound.filter (fun m => decide (m.id = tid)) := by
  obtain ⟨k1, k2, k3, k4, k5, k6, k7, k8, k9⟩ :=
    checkFinished_fields { submitFirstResult job s2 with workerBusy := false }
  obtain ⟨b1, b2, b3, b4, b5, b6, b7, b8, b9⟩ := submit_frame job s2
  have hout := submit_outbound_untouched job s2 tid hjob
  refine ⟨?_, ?_, ?_⟩
  · have hres : (checkFinished { submitFirstResult job s2 with
        workerBusy := false }).results = s2.results := k5.trans b5
    unfold getResults
    rw [hres]
  · have hev : (checkFinished { submitFirstResult job s2 with
        workerBusy := false }).events = s2.events := k6.trans b6
    rw [hev]
  · have ho : (checkFinished { submitFirstResult job s2 with
        workerBusy := false }).outbound = (submitFirstResult job s2).outbound := k7
    rw [ho, hout]

/-- Helper: a resolved cycle preserves queue, index and error log, frees the worker,
and its failed set and pending pool are those of the setup phase. -/
lemma runCycle_frame (job : TestGroup) (s : DispatcherState) :
    (runCycle job s).queue = s.queue
    ∧ (runCycle job s).queueIndexedByTestId = s.queueIndexedByTestId
    ∧ (runCycle job s).errorLog = s.errorLog
    ∧ (runCycle job s).workerBusy = false
    ∧ (runCycle job s).unusedProjectSetupGroupsByProjectId
        = (setupPhase job s).unusedProjectSetupGroupsByProjectId
    ∧ (runCycle job s).failedSetupProjectIds
        = (setupPhase job s).failedSetupProjectIds := by
  obtain ⟨sp1, sp2, sp3, sp4, sp5⟩ := setupPhase_frame job s
  unfold runCycle
  by_cases hf2 : job.projectId ∈ (setupPhase job s).failedSetupProjectIds
  · rw [if_pos hf2]
    obtain ⟨sk1, sk2, sk3, sk4, sk5, sk6, sk7, sk8⟩ :=
      skipGroup_frame job (setupPhase job s)
    obtain ⟨b1, b2, b3, b4, b5, b6, b7, b8, b9⟩ :=
      submit_frame job (skipGroup job (setupPhase job s))
    obtain ⟨k1, k2, k3, k4, k5, k6, k7, k8, k9⟩ :=
      checkFinished_fields
        { submitFirstResult job (skipGroup job (setupPhase job s)) with workerBusy := false }
    exact ⟨k1.trans (b1.trans (sk1.trans sp1)), k2.trans (b2.trans (sk2.trans sp2)),
      k8.trans (b7.trans (sk6.trans sp4)), k9, k4.trans (b4.trans sk4),
      k3.trans (b3.trans sk3)⟩
  · rw [if_neg hf2]
    obtain ⟨sk1, sk2, sk3, sk4, sk5, sk6, sk7, sk8⟩ :=
      startJob_frame job (setupPhase job s)
    obtain ⟨b1, b2, b3, b4, b5, b6, b7, b8, b9⟩ :=
      submit_frame job (startJobInWorker job (setupPhase job s))
    obtain ⟨k1, k2, k3, k4, k5, k6, k7, k8, k9⟩ :=
      checkFinished_fields
        { submitFirstResult job (startJobInWorker job (setupPhase job s)) with
          workerBusy := false }
    exact ⟨k1.trans (b1.trans (sk1.trans sp1)), k2.trans (b2.trans (sk2.trans sp2)),
      k8.trans (b7.trans (sk6.trans sp4)), k9, k4.trans (b4.trans sk4),
      k3.trans (b3.trans sk3)⟩

/-- Helper: a resolved cycle does not touch a test id outside the job and the pending
setup pool. -/
lemma runCycle_untouched (job : TestGroup) (s : DispatcherState) (tid : String)
    (hjob : ∀ t ∈ job.tests, t.id ≠ tid) (hunused : tid ∉ unusedTestIds s) :
    getResults (runCycle job s) tid = getResults s tid
    ∧ (runCycle job s).events.filter (eventMentions tid)
        = s.events.filter (eventMentions tid)
    ∧ (runCycle job s).outbound.filter (fun m => decide (m.id = tid))
        = s.outbound.filter (fun m => decide (m.id = tid)) := by
  obtain ⟨hsp_res, hsp_ev⟩ := setupPhase_untouched job s tid hunused
  obtain ⟨sp1, sp2, sp3, sp4, sp5⟩ := setupPhase_frame job s
  unfold runCycle
  by_cases hf2 : job.projectId ∈ (setupPhase job s).failedSetupProjectIds
  · rw [if_pos hf2]
    obtain ⟨f1, f2, f3⟩ :=
      finishSubmit_untouched job (skipGroup job (setupPhase job s)) tid hjob
    obtain ⟨g1, g2⟩ := skipGroup_untouched job (setupPhase job s) tid hjob
    obtain ⟨sk1, sk2, sk3, sk4, sk5, sk6, sk7, sk8⟩ :=
      skipGroup_frame job (setupPhase job s)
    refine ⟨f1.trans (g1.trans hsp_res), f2.trans (g2.trans hsp_ev), ?_⟩
    rw [f3, sk5, sp3]
  · rw [if_neg hf2]
    obtain ⟨f1, f2, f3⟩ :=
      finishSubmit_untouched job (startJobInWorker job (setupPhase job s)) tid hjob
    obtain ⟨g1, g2⟩ := startJob_untouched job (setupPhase job s) tid hjob
    obtain ⟨sk1, sk2, sk3, sk4, sk5, sk6, sk7, sk8⟩ :=
      startJob_frame job (setupPhase job s)
    refine ⟨f1.trans (g1.trans hsp_res), f2.trans (g2.trans hsp_ev), ?_⟩
    rw [f3, sk5, sp3]

/-- Helper: the scheduling loop on an exhausted message list. -/
lemma scheduleJob_nil (s : DispatcherState) : scheduleJob [] s = s := rfl

/-- Helper: the end-of-stream step empties the queue and re-checks completion. -/
lemma scheduleJob_eos (rest : List (Option String)) (s : DispatcherState) :
    scheduleJob (none :: rest) s = checkFinished { s with queue := [] } := rfl

/-- Helper: the unresolvable-id step logs and returns without reading further. -/
lemma scheduleJob_unknown (id : String) (rest : List (Option String))
    (s : DispatcherState) (h : omGet s.queueIndexedByTestId id = none) :
    scheduleJob (some id :: rest) s
      = { s with
          queueIndexedByTestId := omDelete s.queueIndexedByTestId id
          errorLog := s.errorLog ++ ["could not find job for test case id " ++ id] } := by
  simp only [scheduleJob]
  rw [h]

/-- Helper: the resolved-id step runs a cycle and recurses. -/
lemma scheduleJob_known (id : String) (rest : List (Option String))
    (s : DispatcherState) (job : TestGroup)
    (h : omGet s.queueIndexedByTestId id = some job) :
    scheduleJob (some id :: rest) s
      = scheduleJob rest
          (runCycle job
            { s with queueIndexedByTestId := omDelete s.queueIndexedByTestId id }) := by
  simp only [scheduleJob]
  rw [h]

/-- Helper: a test id never resolvable through the inbound ids keeps its results,
events and outbound messages untouched across the whole loop. -/
lemma scheduleJob_untouched (msgs : List (Option String)) :
    ∀ (s : DispatcherState) (tid : String),
      (∀ id job, some id ∈ msgs → omGet s.queueIndexedByTestId id = some job →
        ∀ t ∈ job.tests, t.id ≠ tid) →
      tid ∉ unusedTestIds s →
      getResults (scheduleJob msgs s) tid = getResults s tid
      ∧ (scheduleJob msgs s).events.filter (eventMentions tid)
          = s.events.filter (eventMentions tid)
      ∧ (scheduleJob msgs s).outbound.filter (fun m => decide (m.id = tid))
          = s.outbound.filter (fun m => decide (m.id = tid)) := by
  induction msgs with
  | nil =>
    intro s tid _ _
    exact ⟨rfl, rfl, rfl⟩
  | cons msg rest ih =>
    intro s tid hres hun
    cases msg with
    | none =>
      rw [scheduleJob_eos]
      obtain ⟨k1, k2, k3, k4, k5, k6, k7, k8, k9⟩ :=
        checkFinished_fields { s with queue := [] }
      refine ⟨?_, ?_, ?_⟩
      · unfold getResults
        rw [k5]
      · rw [k6]
      · rw [k7]
    | some id =>
      cases homg : omGet s.queueIndexedByTestId id with
      | none =>
        rw [scheduleJob_unknown id rest s homg]
        exact ⟨rfl, rfl, rfl⟩
      | some job =>
        rw [scheduleJob_known id rest s job homg]
        have hjob : ∀ t ∈ job.tests, t.id ≠ tid :=
          hres id job (List.mem_cons_self _ _) homg
        have hunDel :
            tid ∉ unusedTestIds
              { s with queueIndexedByTestId := omDelete s.queueIndexedByTestId id } := hun
        obtain ⟨c1, c2, c3⟩ :=
          runCycle_untouched job
            { s with queueIndexedByTestId := omDelete s.queueIndexedByTestId id } tid hjob
            hunDel
        obtain ⟨r1, r2, r3, r4, r5, r6⟩ :=
          runCycle_frame job
            { s with queueIndexedByTestId := omDelete s.queueIndexedByTestId id }
        have hres2 : ∀ id2 job2, some id2 ∈ rest →
            omGet (runCycle job
              { s with queueIndexedByTestId :=
                  omDelete s.queueIndexedByTestId id }).queueIndexedByTestId id2
              = some job2 →
            ∀ t ∈ job2.tests, t.id ≠ tid := by
          intro id2 job2 hmem hget
          rw [r2] at hget
          have hget2 : omGet (omDelete s.queueIndexedByTestId id) id2 = some job2 := hget
          rw [omGet_delete] at hget2
          by_cases hid : id2 = id
          · rw [if_pos hid] at hget2
            cases hget2
          · rw [if_neg hid] at hget2
            exact hres id2 job2 (List.mem_cons_of_mem _ hmem) hget2
        have hun2 : tid ∉ unusedTestIds
            (runCycle job
              { s with queueIndexedByTestId := omDelete s.queueIndexedByTestId id }) := by
          intro hx
          apply hun
          rw [mem_unusedTestIds] at hx
          obtain ⟨l, hl, hrestx⟩ := hx
          rw [r5] at hl
          have hl2 := setupPhase_unused_values job
            { s with queueIndexedByTestId := omDelete s.queueIndexedByTestId id } l hl
          rw [mem_unusedTestIds]
          exact ⟨l, hl2, hrestx⟩
        obtain ⟨d1, d2, d3⟩ :=
          ih (runCycle job
            { s with queueIndexedByTestId := omDelete s.queueIndexedByTestId id }) tid
            hres2 hun2
        exact ⟨d1.trans c1, d2.trans c2, d3.trans c3⟩

/-- Helper: when every named id resolves and names are distinct, the loop reaches the
end-of-stream step, which empties the queue and resolves the finished condition. -/
lemma scheduleJob_reaches_eos (named : List String) :
    ∀ s : DispatcherState, named.Nodup →
      (∀ id ∈ named, (omGet s.queueIndexedByTestId id).isSome = true) →
      s.workerBusy = false →
      (scheduleJob (named.map (fun id => some id) ++ [none]) s).queue = []
      ∧ (scheduleJob (named.map (fun id => some id) ++ [none]) s).finished = true := by
  induction named with
  | nil =>
    intro s _ _ hb
    rw [List.map_nil, List.nil_append, scheduleJob_eos]
    obtain ⟨k1, k2, k3, k4, k5, k6, k7, k8, k9⟩ :=
      checkFinished_fields { s with queue := [] }
    constructor
    · rw [k1]
    · rw [checkFinished_finished]
      simp [hb]
  | cons id rest ih =>
    intro s hnd hsome hb
    have h1 := hsome id (List.mem_cons_self _ _)
    obtain ⟨job, hjob⟩ : ∃ job, omGet s.queueIndexedByTestId id = some job := by
      cases hg : omGet s.queueIndexedByTestId id with
      | none =>
        rw [hg] at h1
        simp at h1
      | some j => exact ⟨j, rfl⟩
    rw [List.map_cons, List.cons_append, scheduleJob_known id _ s job hjob]
    obtain ⟨r1, r2, r3, r4, r5, r6⟩ :=
      runCycle_frame job
        { s with queueIndexedByTestId := omDelete s.queueIndexedByTestId id }
    apply ih
    · exact (List.nodup_cons.mp hnd).2
    · intro id2 hid2
      have hne : id2 ≠ id := by
        intro he
        subst he
        exact (List.nodup_cons.mp hnd).1 hid2
      have heq : omGet (runCycle job
          { s with queueIndexedByTestId :=
              omDelete s.queueIndexedByTestId id }).queueIndexedByTestId id2
          = omGet s.queueIndexedByTestId id2 := by
        rw [r2]
        have h3 : omGet (omDelete s.queueIndexedByTestId id) id2
            = omGet s.queueIndexedByTestId id2 := by
          rw [omGet_delete, if_neg hne]
        exact h3
      rw [heq]
      exact hsome id2 (List.mem_cons_of_mem _ hid2)
    · exact r4

/-- Helper: a group looked up in the built index is a queued group stored under its
first test's id. -/
lemma indexFold_get_mem (gs : List TestGroup) :
    ∀ (m : List (String × TestGroup)) (id : String) (job : TestGroup),
      omGet (gs.foldl indexStep m) id = some job →
      (job ∈ gs ∧ firstTestId job = some id) ∨ omGet m id = some job := by
  induction gs with
  | nil =>
    intro m id job h
    exact Or.inr h
  | cons g rest ih =>
    intro m id job h
    rw [List.foldl_cons] at h
    rcases ih (indexStep m g) id job h with hL | hR
    · exact Or.inl ⟨List.mem_cons_of_mem g hL.1, hL.2⟩
    · cases hg : g.tests with
      | nil =>
        right
        unfold indexStep at hR
        rw [hg] at hR
        exact hR
      | cons t tl =>
        unfold indexStep at hR
        rw [hg] at hR
        have hR2 : omGet (omSet m t.id g) id = some job := hR
        rw [omGet_set] at hR2
        by_cases hid : id = t.id
        · rw [if_pos hid] at hR2
          injection hR2 with hj
          subst hj
          left
          refine ⟨List.mem_cons_self g rest, ?_⟩
          rw [firstTestId, hg]
          simp [hid]
        · rw [if_neg hid] at hR2
          exact Or.inr hR2

/-- Helper: the built index resolves the first test id of every queued group. -/
lemma indexFold_isSome (gs : List TestGroup) :
    ∀ (m : List (String × TestGroup)) (id : String),
      ((omGet m id).isSome = true ∨ ∃ g ∈ gs, firstTestId g = some id) →
      (omGet (gs.foldl indexStep m) id).isSome = true := by
  induction gs with
  | nil =>
    intro m id h
    rcases h with h | ⟨g, hg, _⟩
    · exact h
    · cases hg
  | cons g rest ih =>
    intro m id h
    rw [List.foldl_cons]
    apply ih
    rcases h with h | ⟨g2, hg2, hfid⟩
    · left
      cases hg : g.tests with
      | nil =>
        unfold indexStep
        rw [hg]
        exact h
      | cons t tl =>
        unfold indexStep
        rw [hg]
        show (omGet (omSet m t.id g) id).isSome = true
        rw [omGet_set]
        by_cases hid : id = t.id
        · rw [if_pos hid]
          rfl
        · rw [if_neg hid]
          exact h
    · rcases List.mem_cons.mp hg2 with he | hg3
      · subst he
        left
        cases hg : g2.tests with
        | nil =>
          rw [firstTestId, hg] at hfid
          simp at hfid
        | cons t tl =>
          have htid : t.id = id := by
            rw [firstTestId, hg] at hfid
            simpa using hfid
          unfold indexStep
          rw [hg]
          show (omGet (omSet m t.id g2) id).isSome = true
          rw [omGet_set, if_pos htid.symm]
          rfl
      · exact Or.inr ⟨g2, hg3, hfid⟩

/-- Helper: checkFinished is the identity while the queue is nonempty. -/
lemma checkFinished_of_ne_nil (s : DispatcherState) (h : s.queue ≠ []) :
    checkFinished s = s := by
  have hneg : ¬ (s.queue.isEmpty = true ∧ s.workerBusy = false) := by
    rintro ⟨h1, _⟩
    exact h (List.isEmpty_iff.mp h1)
  unfold checkFinished
  rw [if_neg hneg]

/-- Helper: the setup phase does nothing for an already-poisoned project. -/
lemma setupPhase_of_failed (job : TestGroup) (s : DispatcherState)
    (hfail : job.projectId ∈ s.failedSetupProjectIds) : setupPhase job s = s := by
  unfold setupPhase
  rw [if_pos hfail]

/-- Helper: with an empty pending pool the setup phase only marks the slot busy. -/
lemma setupPhase_empty_pool (job : TestGroup) (s : DispatcherState)
    (hfail : job.projectId ∉ s.failedSetupProjectIds)
    (hpool : s.unusedProjectSetupGroupsByProjectId = []) :
    setupPhase job s = { s with workerBusy := true } := by
  unfold setupPhase
  rw [if_neg hfail, hpool]
  rfl

/-- Helper: full description of a resolved cycle for a healthy project with no
pending setup groups: the group runs, its first test's fresh result is submitted,
and the bookkeeping fields are restored. -/
lemma runCycle_clean (job : TestGroup) (s : DispatcherState) (t : TestCase)
    (tl : List TestCase)
    (hj : job.tests = t :: tl)
    (hfail : job.projectId ∉ s.failedSetupProjectIds)
    (hpool : s.unusedProjectSetupGroupsByProjectId = [])
    (hres0 : getResults s t.id = [])
    (hqueue : s.queue ≠ []) :
    (runCycle job s).queue = s.queue
    ∧ (runCycle job s).queueIndexedByTestId = s.queueIndexedByTestId
    ∧ (runCycle job s).failedSetupProjectIds = s.failedSetupProjectIds
    ∧ (runCycle job s).unusedProjectSetupGroupsByProjectId = []
    ∧ (runCycle job s).workerBusy = false
    ∧ (runCycle job s).finished = s.finished
    ∧ (runCycle job s).errorLog = s.errorLog
    ∧ (runCycle job s).outbound
        = s.outbound
          ++ [submitTestResultMessage t { status := t.runStatus, duration := t.duration }]
    ∧ (∀ tid, getResults (runCycle job s) tid
        = getResults s tid
          ++ (job.tests.filter (fun u => decide (u.id = tid))).map
              (fun u => ({ status := u.runStatus, duration := u.duration } : TestResult)))
    ∧ (runCycle job s).events
        = s.events
          ++ job.tests.flatMap (fun u =>
              [ReporterEvent.testBegin u.id, ReporterEvent.testEnd u.id u.runStatus]) := by
  have hsp := setupPhase_empty_pool job s hfail hpool
  have hcond : job.projectId ∉ (setupPhase job s).failedSetupProjectIds := by
    rw [hsp]
    exact hfail
  unfold runCycle
  rw [if_neg hcond, hsp]
  obtain ⟨x1, x2, x3, x4, x5, x6, x7, x8⟩ :=
    startJob_frame job { s with workerBusy := true }
  have hXr : ∀ tid, getResults (startJobInWorker job { s with workerBusy := true }) tid
      = getResults s tid
        ++ (job.tests.filter (fun u => decide (u.id = tid))).map
            (fun u => ({ status := u.runStatus, duration := u.duration } : TestResult)) :=
    fun tid => startJob_results job { s with workerBusy := true } tid
  have hXe : (startJobInWorker job { s with workerBusy := true }).events
      = s.events
        ++ job.tests.flatMap (fun u =>
            [ReporterEvent.testBegin u.id, ReporterEvent.testEnd u.id u.runStatus]) :=
    startJob_events job { s with workerBusy := true }
  obtain ⟨b1, b2, b3, b4, b5, b6, b7, b8, b9⟩ :=
    submit_frame job (startJobInWorker job { s with workerBusy := true })
  have hhead : (getResults (startJobInWorker job { s with workerBusy := true }) t.id).headD
      { status := .skipped, duration := 0 }
      = { status := t.runStatus, duration := t.duration } := by
    rw [hXr t.id, hres0, hj]
    simp
  have hYout : (submitFirstResult job
      (startJobInWorker job { s with workerBusy := true })).outbound
      = s.outbound
        ++ [submitTestResultMessage t { status := t.runStatus, duration := t.duration }] := by
    rw [submit_outbound job _ t tl hj, hhead, x5]
  obtain ⟨k1, k2, k3, k4, k5, k6, k7, k8, k9⟩ :=
    checkFinished_fields
      { submitFirstResult job (startJobInWorker job { s with workerBusy := true }) with
        workerBusy := false }
  have hkq : (checkFinished
      { submitFirstResult job (startJobInWorker job { s with workerBusy := true }) with
        workerBusy := false }).queue = s.queue := k1.trans (b1.trans x1)
  have hfin : (checkFinished
      { submitFirstResult job (startJobInWorker job { s with workerBusy := true }) with
        workerBusy := false }).finished
      = ({ submitFirstResult job (startJobInWorker job { s with workerBusy := true }) with
          workerBusy := false } : DispatcherState).finished := by
    rw [checkFinished_of_ne_nil _ (by
      have hzq : ({ submitFirstResult job
          (startJobInWorker job { s with workerBusy := true }) with
          workerBusy := false } : DispatcherState).queue = s.queue := b1.trans x1
      rw [hzq]
      exact hqueue)]
  refine ⟨hkq, k2.trans (b2.trans x2), k3.trans (b3.trans x3), ?_, k9, ?_, ?_, ?_, ?_, ?_⟩
  · have h4 : (checkFinished
        { submitFirstResult job (startJobInWorker job { s with workerBusy := true }) with
          workerBusy := false }).unusedProjectSetupGroupsByProjectId
        = s.unusedProjectSetupGroupsByProjectId := k4.trans (b4.trans x4)
    rw [h4, hpool]
  · rw [hfin]
    exact b9.trans x8
  · exact k8.trans (b7.trans x6)
  · rw [k7, hYout]
  · intro tid
    have h5 : (checkFinished
        { submitFirstResult job (startJobInWorker job { s with workerBusy := true }) with
          workerBusy := false }).results
        = (startJobInWorker job { s with workerBusy := true }).results := k5.trans b5
    unfold getResults
    rw [h5]
    exact hXr tid
  · rw [k6.trans b6]
    exact hXe

/-- Helper: full description of a resolved cycle for a poisoned project: every test
of the group is marked skipped without execution, and the skipped first result is
submitted. -/
lemma runCycle_poisoned (job : TestGroup) (s : DispatcherState) (t : TestCase)
    (tl : List TestCase)
    (hj : job.tests = t :: tl)
    (hfail : job.projectId ∈ s.failedSetupProjectIds)
    (hres0 : getResults s t.id = [])
    (hqueue : s.queue ≠ []) :
    (runCycle job s).queue = s.queue
    ∧ (runCycle job s).queueIndexedByTestId = s.queueIndexedByTestId
    ∧ (runCycle job s).failedSetupProjectIds = s.failedSetupProjectIds
    ∧ (runCycle job s).unusedProjectSetupGroupsByProjectId
        = s.unusedProjectSetupGroupsByProjectId
    ∧ (runCycle job s).workerBusy = false
    ∧ (runCycle job s).finished = s.finished
    ∧ (runCycle job s).errorLog = s.errorLog
    ∧ (runCycle job s).outbound
        = s.outbound
          ++ [submitTestResultMessage t { status := .skipped, duration := 0 }]
    ∧ (∀ tid, getResults (runCycle job s) tid
        = getResults s tid
          ++ (job.tests.filter (fun u => decide (u.id = tid))).map
              (fun _ => ({ status := .skipped, duration := 0 } : TestResult)))
    ∧ (runCycle job s).events
        = s.events
          ++ job.tests.flatMap (fun u =>
              [ReporterEvent.testBegin u.id, ReporterEvent.testEnd u.id .skipped]) := by
  have hsp := setupPhase_of_failed job s hfail
  have hcond : job.projectId ∈ (setupPhase job s).failedSetupProjectIds := by
    rw [hsp]
    exact hfail
  unfold runCycle
  rw [if_pos hcond, hsp]
  obtain ⟨x1, x2, x3, x4, x5, x6, x7, x8⟩ := skipGroup_frame job s
  have hXr : ∀ tid, getResults (skipGroup job s) tid
      = getResults s tid
        ++ (job.tests.filter (fun u => decide (u.id = tid))).map
            (fun _ => ({ status := .skipped, duration := 0 } : TestResult)) :=
    fun tid => skipGroup_results job s tid
  have hXe : (skipGroup job s).events
      = s.events
        ++ job.tests.flatMap (fun u =>
            [ReporterEvent.testBegin u.id, ReporterEvent.testEnd u.id .skipped]) :=
    skipGroup_events job s
  obtain ⟨b1, b2, b3, b4, b5, b6, b7, b8, b9⟩ := submit_frame job (skipGroup job s)
  have hhead : (getResults (skipGroup job s) t.id).headD { status := .skipped, duration := 0 }
      = ({ status := .skipped, duration := 0 } : TestResult) := by
    rw [hXr t.id, hres0, hj]
    simp
  have hYout : (submitFirstResult job (skipGroup job s)).outbound
      = s.outbound
        ++ [submitTestResultMessage t { status := .skipped, duration := 0 }] := by
    rw [submit_outbound job _ t tl hj, hhead, x5]
  obtain ⟨k1, k2, k3, k4, k5, k6, k7, k8, k9⟩ :=
    checkFinished_fields
      { submitFirstResult job (skipGroup job s) with workerBusy := false }
  have hfin : (checkFinished
      { submitFirstResult job (skipGroup job s) with workerBusy := false }).finished
      = ({ submitFirstResult job (skipGroup job s) with
          workerBusy := false } : DispatcherState).finished := by
    rw [checkFinished_of_ne_nil _ (by
      have hzq : ({ submitFirstResult job (skipGroup job s) with
          workerBusy := false } : DispatcherState).queue = s.queue := b1.trans x1
      rw [hzq]
      exact hqueue)]
  refine ⟨k1.trans (b1.trans x1), k2.trans (b2.trans x2), k3.trans (b3.trans x3),
    k4.trans (b4.trans x4), k9, ?_, k8.trans (b7.trans x6), ?_, ?_, ?_⟩
  · rw [hfin]
    exact b9.trans x8
  · rw [k7, hYout]
  · intro tid
    have h5 : (checkFinished
        { submitFirstResult job (skipGroup job s) with workerBusy := false }).results
        = (skipGroup job s).results := k5.trans b5
    unfold getResults
    rw [h5]
    exact hXr tid
  · rw [k6.trans b6]
    exact hXe

/-- Helper: filtering a duplicate-free test list by one member's id keeps exactly
that member. -/
lemma filter_id_eq_single (ts : List TestCase) (u : TestCase)
    (hnd : (ts.map (fun t => t.id)).Nodup) (hu : u ∈ ts) :
    ts.filter (fun x => decide (x.id = u.id)) = [u] := by
  induction ts with
  | nil => cases hu
  | cons a ts ih =>
    rw [List.map_cons, List.nodup_cons] at hnd
    rcases List.mem_cons.mp hu with he | hu2
    · subst he
      rw [List.filter_cons, if_pos (by simp)]
      have hnil : ts.filter (fun x => decide (x.id = u.id)) = [] := by
        rw [List.filter_eq_nil_iff]
        intro x hx
        simp only [decide_eq_true_eq]
        intro he2
        exact hnd.1 (List.mem_map.mpr ⟨x, hx, he2⟩)
      rw [hnil]
    · have hne : ¬ (a.id = u.id) := by
        intro he
        apply hnd.1
        rw [he]
        exact List.mem_map.mpr ⟨u, hu2, rfl⟩
      rw [List.filter_cons, if_neg (by simp [hne])]
      exact ih hnd.2 hu2

/-- Helper: full description of a resolved cycle when the project's pending pool
holds two setup groups and the first one's sole test fails: the first setup group
runs once, the loop halts before the second, the project is poisoned and its pool
entry removed, the job is skipped, and the skipped first result is submitted. -/
lemma runCycle_setupFails (job setupA setupB : TestGroup) (tS t : TestCase)
    (tl : List TestCase) (s : DispatcherState)
    (hj : job.tests = t :: tl)
    (hfail0 : s.failedSetupProjectIds = [])
    (hpool : s.unusedProjectSetupGroupsByProjectId = [(job.projectId, [setupA, setupB])])
    (hsA : setupA.tests = [tS])
    (htS : tS.passes = false)
    (hpA : setupA.projectId = job.projectId)
    (hres0 : getResults s t.id = [])
    (htne : t.id ≠ tS.id)
    (hqueue : s.queue ≠ []) :
    (runCycle job s).queue = s.queue
    ∧ (runCycle job s).queueIndexedByTestId = s.queueIndexedByTestId
    ∧ (runCycle job s).errorLog = s.errorLog
    ∧ (runCycle job s).workerBusy = false
    ∧ (runCycle job s).failedSetupProjectIds = [job.projectId]
    ∧ (runCycle job s).unusedProjectSetupGroupsByProjectId = []
    ∧ (runCycle job s).finished = s.finished
    ∧ (runCycle job s).outbound
        = s.outbound ++ [submitTestResultMessage t { status := .skipped, duration := 0 }]
    ∧ (∀ tid, getResults (runCycle job s) tid
        = (getResults s tid
            ++ (if tid = tS.id
                then [({ status := tS.runStatus, duration := tS.duration } : TestResult)]
                else []))
          ++ (job.tests.filter (fun u => decide (u.id = tid))).map
              (fun _ => ({ status := .skipped, duration := 0 } : TestResult)))
    ∧ (runCycle job s).events
        = (s.events
            ++ [ReporterEvent.testBegin tS.id, ReporterEvent.testEnd tS.id tS.runStatus])
          ++ job.tests.flatMap (fun u =>
              [ReporterEvent.testBegin u.id, ReporterEvent.testEnd u.id .skipped]) := by
  have hf0 : job.projectId ∉ s.failedSetupProjectIds := by
    rw [hfail0]
    simp
  have hget : omGet s.unusedProjectSetupGroupsByProjectId job.projectId
      = some [setupA, setupB] := by
    rw [hpool, omGet_cons]
    simp
  have hany : setupA.tests.any (fun u => decide (u.passes = false)) = true := by
    rw [hsA]
    simp [htS]
  have hstart : startJobInWorker setupA { s with workerBusy := true }
      = runOneTest { s with workerBusy := true } tS := by
    unfold startJobInWorker
    rw [hsA]
    rfl
  have hsp : setupPhase job s
      = { runOneTest { s with workerBusy := true } tS with
          failedSetupProjectIds := [job.projectId]
          unusedProjectSetupGroupsByProjectId := [] } := by
    unfold setupPhase
    rw [if_neg hf0, hget]
    simp only [Option.getD]
    rw [runSetupGroups_cons_fail setupA [setupB] _ hany, hstart]
    simp [runOneTest, hpool, hfail0, hpA, omDelete]
  have hcond2 : job.projectId ∈ (setupPhase job s).failedSetupProjectIds := by
    rw [hsp]
    exact List.mem_cons_self _ _
  unfold runCycle
  rw [if_pos hcond2, hsp]
  have hSPres : ∀ tid,
      getResults { runOneTest { s with workerBusy := true } tS with
        failedSetupProjectIds := [job.projectId]
        unusedProjectSetupGroupsByProjectId := [] } tid
      = getResults s tid
        ++ (if tid = tS.id
            then [({ status := tS.runStatus, duration := tS.duration } : TestResult)]
            else []) := by
    intro tid
    show (omGet (omSet s.results tS.id
        (getResults s tS.id
          ++ [{ status := tS.runStatus, duration := tS.duration }])) tid).getD [] = _
    rw [omGet_set]
    by_cases hx : tid = tS.id
    · subst hx
      simp
    · rw [if_neg hx, if_neg hx]
      simp [getResults]
  obtain ⟨x1, x2, x3, x4, x5, x6, x7, x8⟩ :=
    skipGroup_frame job
      { runOneTest { s with workerBusy := true } tS with
        failedSetupProjectIds := [job.projectId]
        unusedProjectSetupGroupsByProjectId := [] }
  have hXr : ∀ tid, getResults (skipGroup job
      { runOneTest { s with workerBusy := true } tS with
        failedSetupProjectIds := [job.projectId]
        unusedProjectSetupGroupsByProjectId := [] }) tid
      = (getResults s tid
          ++ (if tid = tS.id
              then [({ status := tS.runStatus, duration := tS.duration } : TestResult)]
              else []))
        ++ (job.tests.filter (fun u => decide (u.id = tid))).map
            (fun _ => ({ status := .skipped, duration := 0 } : TestResult)) := by
    intro tid
    rw [skipGroup_results, hSPres tid]
  have hXe : (skipGroup job
      { runOneTest { s with workerBusy := true } tS with
        failedSetupProjectIds := [job.projectId]
        unusedProjectSetupGroupsByProjectId := [] }).events
      = (s.events
          ++ [ReporterEvent.testBegin tS.id, ReporterEvent.testEnd tS.id tS.runStatus])
        ++ job.tests.flatMap (fun u =>
            [ReporterEvent.testBegin u.id, ReporterEvent.testEnd u.id .skipped]) :=
    skipGroup_events job _
  obtain ⟨b1, b2, b3, b4, b5, b6, b7, b8, b9⟩ :=
    submit_frame job
      (skipGroup job
        { runOneTest { s with workerBusy := true } tS with
          failedSetupProjectIds := [job.projectId]
          unusedProjectSetupGroupsByProjectId := [] })
  have hhead : (getResults (skipGroup job
      { runOneTest { s with workerBusy := true } tS with
        failedSetupProjectIds := [job.projectId]
        unusedProjectSetupGroupsByProjectId := [] }) t.id).headD
      { status := .skipped, duration := 0 }
      = ({ status := .skipped, duration := 0 } : TestResult) := by
    rw [hXr t.id, hres0, if_neg htne, hj]
    simp
  have hYout : (submitFirstResult job
      (skipGroup job
        { runOneTest { s with workerBusy := true } tS with
          failedSetupProjectIds := [job.projectId]
          unusedProjectSetupGroupsByProjectId := [] })).outbound
      = s.outbound ++ [submitTestResultMessage t { status := .skipped, duration := 0 }] := by
    rw [submit_outbound job _ t tl hj, hhead]
    have hspout : (skipGroup job
        { runOneTest { s with workerBusy := true } tS with
          failedSetupProjectIds := [job.projectId]
          unusedProjectSetupGroupsByProjectId := [] }).outbound = s.outbound := x5
    rw [hspout]
  obtain ⟨k1, k2, k3, k4, k5, k6, k7, k8, k9⟩ :=
    checkFinished_fields
      { submitFirstResult job
          (skipGroup job
            { runOneTest { s with workerBusy := true } tS with
              failedSetupProjectIds := [job.projectId]
              unusedProjectSetupGroupsByProjectId := [] }) with
        workerBusy := false }
  have hfin : (checkFinished
      { submitFirstResult job
          (skipGroup job
            { runOneTest { s with workerBusy := true } tS with
              failedSetupProjectIds := [job.projectId]
              unusedProjectSetupGroupsByProjectId := [] }) with
        workerBusy := false }).finished
      = ({ submitFirstResult job
          (skipGroup job
            { runOneTest { s with workerBusy := true } tS with
              failedSetupProjectIds := [job.projectId]
              unusedProjectSetupGroupsByProjectId := [] }) with
        workerBusy := false } : DispatcherState).finished := by
    rw [checkFinished_of_ne_nil _ (by
      have hzq : ({ submitFirstResult job
          (skipGroup job
            { runOneTest { s with workerBusy := true } tS with
              failedSetupProjectIds := [job.projectId]
              unusedProjectSetupGroupsByProjectId := [] }) with
        workerBusy := false } : DispatcherState).queue = s.queue := b1.trans x1
      rw [hzq]
      exact hqueue)]
  refine ⟨k1.trans (b1.trans x1), k2.trans (b2.trans x2), k8.trans (b7.trans x6), k9,
    k3.trans (b3.trans x3), k4.trans (b4.trans x4), ?_, ?_, ?_, ?_⟩
  · rw [hfin]
    exact b9.trans x8
  · rw [k7, hYout]
  · intro tid
    have h5 : (checkFinished
        { submitFirstResult job
            (skipGroup job
              { runOneTest { s with workerBusy := true } tS with
                failedSetupProjectIds := [job.projectId]
                unusedProjectSetupGroupsByProjectId := [] }) with
          workerBusy := false }).results
        = (skipGroup job
            { runOneTest { s with workerBusy := true } tS with
              failedSetupProjectIds := [job.projectId]
              unusedProjectSetupGroupsByProjectId := [] }).results := k5.trans b5
    unfold getResults
    rw [h5]
    exact hXr tid
  · rw [k6.trans b6]
    exact hXe

/-- Helper: writing a key into an ordered map exchanges the old binding's measure
for the new one, in cancellative multiset form. -/
lemma omSum_set {κ ν : Type} [DecidableEq κ] (f : ν → Multiset TestCase) :
    ∀ (m : List (κ × ν)) (k : κ) (v : ν),
      ((omSet m k v).map (fun p => f p.2)).sum + ((omGet m k).map f).getD 0
        = (m.map (fun p => f p.2)).sum + f v := by
  intro m
  induction m with
  | nil =>
    intro k v
    simp [omSet, omGet_nil]
  | cons p rest ih =>
    intro k v
    by_cases hp : p.1 = k
    · have hset : omSet (p :: rest) k v = (k, v) :: rest := by
        simp [omSet, hp]
      rw [hset, omGet_cons, if_pos hp]
      simp [add_comm, add_left_comm, add_assoc]
    · have hset : omSet (p :: rest) k v = p :: omSet rest k v := by
        simp [omSet, hp]
      rw [hset, omGet_cons, if_neg hp]
      simp only [List.map_cons, List.sum_cons]
      rw [add_assoc, ih k v, ← add_assoc]

/-- Helper: a successful lookup exhibits its binding as a member of the map. -/
lemma omGet_mem_pair {κ ν : Type} [DecidableEq κ] (m : List (κ × ν)) (k : κ) (v : ν)
    (h : omGet m k = some v) : (k, v) ∈ m := by
  induction m with
  | nil => simp [omGet_nil] at h
  | cons p rest ih =>
    rw [omGet_cons] at h
    by_cases hp : p.1 = k
    · rw [if_pos hp] at h
      injection h with hv
      have hpv : (k, v) = p := by
        rw [← hp, ← hv]
      rw [hpv]
      exact List.mem_cons_self p rest
    · rw [if_neg hp] at h
      exact List.mem_cons_of_mem p (ih h)

/-- Helper: members of a map after a write are old members or the new binding. -/
lemma om_mem_set {κ ν : Type} [DecidableEq κ] (m : List (κ × ν)) (k : κ) (v : ν)
    (p : κ × ν) (hp : p ∈ omSet m k v) : p ∈ m ∨ p = (k, v) := by
  induction m with
  | nil =>
    simp [omSet] at hp
    exact Or.inr hp
  | cons q rest ih =>
    by_cases hq : q.1 = k
    · rw [show omSet (q :: rest) k v = (k, v) :: rest from by simp [omSet, hq]] at hp
      rcases List.mem_cons.mp hp with he | hm
      · exact Or.inr he
      · exact Or.inl (List.mem_cons_of_mem q hm)
    · rw [show omSet (q :: rest) k v = q :: omSet rest k v from by simp [omSet, hq]] at hp
      rcases List.mem_cons.mp hp with he | hm
      · exact Or.inl (he ▸ List.mem_cons_self q rest)
      · rcases ih hm with h1 | h2
        · exact Or.inl (List.mem_cons_of_mem q h1)
        · exact Or.inr h2

/-- Helper: a fresh bucket record holds no tests. -/
lemma bucketM_default (t : TestCase) : bucketM (defaultBuckets t) = 0 := by
  simp [bucketM, groupsM, defaultBuckets, createGroup]

/-- Helper: the exchange law of omSum_set specialized to the parallel groups. -/
lemma groupsM_set (P : List ((Nat ⊕ String) × TestGroup)) (k : Nat ⊕ String)
    (g : TestGroup) :
    groupsM (omSet P k g)
      + ((omGet P k).map (fun g2 => (g2.tests : Multiset TestCase))).getD 0
      = groupsM P + (g.tests : Multiset TestCase) :=
  omSum_set _ P k g

/-- Helper: routing one test adds exactly that test to the bucket's contents. -/
lemma routeTest_bucketM (b0 : GroupBuckets) (t : TestCase) :
    bucketM (routeTest b0 t) = bucketM b0 + {t} := by
  unfold routeTest
  by_cases h1 : (ancestryWalk t).1
  · rw [if_pos h1]
    by_cases h2 : ((ancestryWalk t).2.2 && (ancestryWalk t).2.1.isNone) = true
    · rw [if_pos h2]
      simp [bucketM, pushTest, ← Multiset.coe_add, add_comm, add_left_comm, add_assoc]
    · rw [if_neg h2]
      cases hB : omGet b0.parallelGroups (testKey t) with
      | none =>
        have h := groupsM_set b0.parallelGroups (testKey t)
          (pushTest ((omGet b0.parallelGroups (testKey t)).getD (createGroup t)) t)
        rw [hB] at h
        simp only [Option.getD_none, Option.map_none'] at h ⊢
        simp only [Option.getD_none, add_zero] at h
        have hpt : ((pushTest (createGroup t) t).tests : Multiset TestCase) = {t} := by
          simp [pushTest, createGroup]
        rw [hpt] at h
        simp [bucketM, h, add_comm, add_left_comm, add_assoc]
      | some g0 =>
        have h := groupsM_set b0.parallelGroups (testKey t)
          (pushTest ((omGet b0.parallelGroups (testKey t)).getD (createGroup t)) t)
        rw [hB] at h
        simp at h ⊢
        have hpt : ((pushTest g0 t).tests : Multiset TestCase)
            = (g0.tests : Multiset TestCase) + {t} := by
          simp [pushTest, ← Multiset.coe_add]
        rw [hpt] at h
        have h6 : groupsM (omSet b0.parallelGroups (testKey t) (pushTest g0 t))
            + (g0.tests : Multiset TestCase)
            = (groupsM b0.parallelGroups + {t}) + (g0.tests : Multiset TestCase) := by
          rw [h]
          simp [add_comm, add_left_comm, add_assoc]
        have h7 := add_right_cancel h6
        simp [bucketM, h7, add_comm, add_left_comm, add_assoc]
  · rw [if_neg h1]
    simp [bucketM, pushTest, ← Multiset.coe_add, add_comm, add_left_comm, add_assoc]

/-- Helper: adding one test to the structure adds exactly that test's multiset. -/
lemma addTest_structM (gs : List (String × List (String × GroupBuckets)))
    (t : TestCase) : structM (addTestToGroups gs t) = structM gs + {t} := by
  have hb2 : bucketM (routeTest
      ((omGet ((omGet gs t.workerHash).getD []) t.requireFile).getD (defaultBuckets t)) t)
      = ((omGet ((omGet gs t.workerHash).getD []) t.requireFile).map bucketM).getD 0
        + {t} := by
    rw [routeTest_bucketM]
    cases hB : omGet ((omGet gs t.workerHash).getD []) t.requireFile with
    | none => simp [bucketM_default]
    | some b0 => simp
  have hinner : innerM (omSet ((omGet gs t.workerHash).getD []) t.requireFile
      (routeTest
        ((omGet ((omGet gs t.workerHash).getD []) t.requireFile).getD (defaultBuckets t))
        t))
      + ((omGet ((omGet gs t.workerHash).getD []) t.requireFile).map bucketM).getD 0
      = innerM ((omGet gs t.workerHash).getD [])
        + bucketM (routeTest
            ((omGet ((omGet gs t.workerHash).getD []) t.requireFile).getD
              (defaultBuckets t)) t) :=
    omSum_set bucketM ((omGet gs t.workerHash).getD []) t.requireFile _
  have hinner2 : innerM (omSet ((omGet gs t.workerHash).getD []) t.requireFile
      (routeTest
        ((omGet ((omGet gs t.workerHash).getD []) t.requireFile).getD (defaultBuckets t))
        t))
      = innerM ((omGet gs t.workerHash).getD []) + {t} := by
    apply add_right_cancel
      (b := ((omGet ((omGet gs t.workerHash).getD []) t.requireFile).map bucketM).getD 0)
    rw [hinner, hb2]
    simp [add_comm, add_left_comm, add_assoc]
  have houter : structM (addTestToGroups gs t)
      + ((omGet gs t.workerHash).map innerM).getD 0
      = structM gs
        + innerM (omSet ((omGet gs t.workerHash).getD []) t.requireFile
            (routeTest
              ((omGet ((omGet gs t.workerHash).getD []) t.requireFile).getD
                (defaultBuckets t)) t)) :=
    omSum_set innerM gs t.workerHash _
  have h5 : innerM (omSet ((omGet gs t.workerHash).getD []) t.requireFile
      (routeTest
        ((omGet ((omGet gs t.workerHash).getD []) t.requireFile).getD (defaultBuckets t))
        t))
      = ((omGet gs t.workerHash).map innerM).getD 0 + {t} := by
    rw [hinner2]
    cases hA : omGet gs t.workerHash with
    | none => simp [innerM]
    | some inner0 => simp
  apply add_right_cancel (b := ((omGet gs t.workerHash).map innerM).getD 0)
  rw [houter, h5]
  simp [add_comm, add_left_comm, add_assoc]

/-- Helper: folding the whole test list into the structure collects its multiset. -/
lemma foldl_structM (ts : List TestCase) :
    ∀ gs, structM (ts.foldl addTestToGroups gs) = structM gs + (ts : Multiset TestCase) := by
  induction ts with
  | nil =>
    intro gs
    simp
  | cons t ts ih =>
    intro gs
    rw [List.foldl_cons, ih (addTestToGroups gs t), addTest_structM]
    have hc : ((t :: ts : List TestCase) : Multiset TestCase)
        = {t} + (ts : Multiset TestCase) := by
      rw [show (t :: ts) = [t] ++ ts from rfl, ← Multiset.coe_add, Multiset.coe_singleton]
    rw [hc]
    simp [add_comm, add_left_comm, add_assoc]

/-- Helper: the trailing chunking loop emits exactly the accumulator then the rest. -/
lemma hooksChunks_flat (size : Nat) :
    ∀ (ts acc : List TestCase) (seed : TestCase),
      (hooksChunks size seed acc ts).flatMap (fun g => g.tests) = acc ++ ts := by
  intro ts
  induction ts with
  | nil =>
    intro acc seed
    simp [hooksChunks]
  | cons t ts ih =>
    intro acc seed
    by_cases h : acc.length ≥ size
    · simp only [hooksChunks, if_pos h, List.flatMap_cons]
      rw [ih [t] t]
      simp
    · simp only [hooksChunks, if_neg h]
      rw [ih (acc ++ [t]) seed]
      simp

/-- Helper: the concatenated tests of the parallel groups form their multiset. -/
lemma groupsM_flat (l : List ((Nat ⊕ String) × TestGroup)) :
    (((l.map (fun p => p.2)).flatMap (fun g => g.tests)) : Multiset TestCase)
      = groupsM l := by
  induction l with
  | nil => simp [groupsM]
  | cons p rest ih =>
    simp only [List.map_cons, List.flatMap_cons, ← Multiset.coe_add]
    rw [ih]
    rfl

/-- Helper: emission of one bucket, flattened back to a test list. -/
lemma emit_flat (w : Nat) (b : GroupBuckets) :
    (emitBuckets w b).flatMap (fun g => g.tests)
      = (if b.general.tests.length ≠ 0 then b.general.tests else [])
        ++ (b.parallelGroups.map (fun p => p.2)).flatMap (fun g => g.tests)
        ++ b.parallelWithHooks.tests := by
  unfold emitBuckets
  cases hP : b.parallelWithHooks.tests with
  | nil =>
    by_cases hG : b.general.tests.length ≠ 0 <;>
      simp [hG, List.flatMap_append]
  | cons t ts =>
    simp only [List.flatMap_append]
    rw [hooksChunks_flat]
    by_cases hG : b.general.tests.length ≠ 0 <;> simp [hG]

/-- Helper: emission of one bucket preserves its multiset of tests. -/
lemma emit_tests (w : Nat) (b : GroupBuckets) :
    (((emitBuckets w b).flatMap (fun g => g.tests)) : Multiset TestCase) = bucketM b := by
  rw [emit_flat]
  simp only [← Multiset.coe_add]
  rw [groupsM_flat]
  by_cases hG : b.general.tests.length ≠ 0
  · rw [if_pos hG]
    rfl
  · rw [if_neg hG]
    push_neg at hG
    have h0 : b.general.tests = [] := List.length_eq_zero.mp hG
    rw [bucketM, h0]

/-- Helper: the multiset of a cons cell at the workerHash-entry level. -/
lemma innerM_cons (p : String × GroupBuckets) (rest : List (String × GroupBuckets)) :
    innerM (p :: rest) = bucketM p.2 + innerM rest := rfl

/-- Helper: the multiset of a cons cell at the structure level. -/
lemma structM_cons (p : String × List (String × GroupBuckets))
    (rest : List (String × List (String × GroupBuckets))) :
    structM (p :: rest) = innerM p.2 + structM rest := rfl

/-- Helper: emitting a whole workerHash entry preserves its multiset of tests. -/
lemma inner_emit (w : Nat) (m : List (String × GroupBuckets)) :
    ((m.flatMap (fun rf => emitBuckets w rf.2)).flatMap (fun g => g.tests)
        : Multiset TestCase) = innerM m := by
  induction m with
  | nil => simp [innerM]
  | cons p rest ih =>
    rw [innerM_cons]
    simp only [List.flatMap_cons, List.flatMap_append, ← Multiset.coe_add]
    rw [emit_tests, ih]

/-- Helper: emitting the whole structure preserves its multiset of tests. -/
lemma struct_emit (w : Nat) (gs : List (String × List (String × GroupBuckets))) :
    ((gs.flatMap (fun wh => wh.2.flatMap (fun rf => emitBuckets w rf.2))).flatMap
        (fun g => g.tests) : Multiset TestCase) = structM gs := by
  induction gs with
  | nil => simp [structM]
  | cons p rest ih =>
    rw [structM_cons]
    simp only [List.flatMap_cons, List.flatMap_append, ← Multiset.coe_add]
    rw [inner_emit, ih]

/-- Helper: createTestGroups redistributes exactly the multiset of input tests. -/
lemma createTestGroups_multiset (ps : List (List TestCase)) (w : Nat) :
    (((createTestGroups ps w).flatMap (fun g => g.tests)) : Multiset TestCase)
      = (ps.flatten : Multiset TestCase) := by
  simp only [createTestGroups]
  rw [struct_emit, foldl_structM]
  simp [structM]

/-- Helper: a freshly created group satisfies the bucket invariant of its seed. -/
lemma GInv_create (allT : List TestCase) (wh rf : String) (t : TestCase)
    (ht : t ∈ allT) (hw : t.workerHash = wh) (hr : t.requireFile = rf) :
    GInv allT wh rf (createGroup t) := by
  refine ⟨hw, hr, ⟨t, ht, hw, rfl⟩, ?_⟩
  intro u hu
  simp [createGroup] at hu

/-- Helper: pushing a matching input test preserves the group invariant. -/
lemma GInv_push (allT : List TestCase) (wh rf : String) (g : TestGroup) (t : TestCase)
    (hg : GInv allT wh rf g) (ht : t ∈ allT) (hw : t.workerHash = wh)
    (hr : t.requireFile = rf) : GInv allT wh rf (pushTest g t) := by
  obtain ⟨h1, h2, h3, h4⟩ := hg
  refine ⟨h1, h2, h3, ?_⟩
  intro u hu
  rcases List.mem_append.mp hu with h | h
  · exact h4 u h
  · simp only [List.mem_singleton] at h
    subst h
    exact ⟨ht, hw, hr⟩

/-- Helper: the fresh bucket record of a test satisfies the bucket invariant. -/
lemma BucketInv_default (allT : List TestCase) (t : TestCase) (ht : t ∈ allT) :
    BucketInv allT t.workerHash t.requireFile (defaultBuckets t) := by
  refine ⟨GInv_create allT _ _ t ht rfl rfl, ?_, GInv_create allT _ _ t ht rfl rfl⟩
  intro p hp
  simp [defaultBuckets] at hp

/-- Helper: routing a matching input test preserves the bucket invariant. -/
lemma routeTest_BucketInv (allT : List TestCase) (wh rf : String) (b : GroupBuckets)
    (t : TestCase) (hb : BucketInv allT wh rf b) (ht : t ∈ allT)
    (hw : t.workerHash = wh) (hr : t.requireFile = rf) :
    BucketInv allT wh rf (routeTest b t) := by
  obtain ⟨hbg, hbp, hbh⟩ := hb
  unfold routeTest
  by_cases h1 : (ancestryWalk t).1
  · rw [if_pos h1]
    by_cases h2 : ((ancestryWalk t).2.2 && (ancestryWalk t).2.1.isNone) = true
    · rw [if_pos h2]
      exact ⟨hbg, hbp, GInv_push allT wh rf _ t hbh ht hw hr⟩
    · rw [if_neg h2]
      refine ⟨hbg, ?_, hbh⟩
      intro p hp
      rcases om_mem_set _ _ _ _ hp with hold | hnew
      · exact hbp p hold
      · rw [hnew]
        cases hB : omGet b.parallelGroups (testKey t) with
        | none =>
          exact GInv_push allT wh rf _ t (GInv_create allT wh rf t ht hw hr) ht hw hr
        | some g0 =>
          exact GInv_push allT wh rf _ t (hbp (testKey t, g0) (omGet_mem_pair _ _ _ hB))
            ht hw hr
  · rw [if_neg h1]
    exact ⟨GInv_push allT wh rf _ t hbg ht hw hr, hbp, hbh⟩

/-- Helper: inserting one input test preserves the whole-structure invariant. -/
lemma addTest_StructInv (allT : List TestCase)
    (gs : List (String × List (String × GroupBuckets))) (t : TestCase)
    (ht : t ∈ allT) (hs : StructInv allT gs) : StructInv allT (addTestToGroups gs t) := by
  intro whp hwhp rfp hrfp
  rcases om_mem_set _ _ _ _ hwhp with hold | hnew
  · exact hs whp hold rfp hrfp
  · rw [hnew] at hrfp ⊢
    rcases om_mem_set _ _ _ _ hrfp with hold2 | hnew2
    · cases hA : omGet gs t.workerHash with
      | none =>
        rw [hA] at hold2
        simp at hold2
      | some inner0 =>
        rw [hA] at hold2
        simp only [Option.getD_some] at hold2
        exact hs (t.workerHash, inner0) (omGet_mem_pair _ _ _ hA) rfp hold2
    · rw [hnew2]
      cases hB : omGet ((omGet gs t.workerHash).getD []) t.requireFile with
      | none =>
        exact routeTest_BucketInv allT t.workerHash t.requireFile _ t
          (BucketInv_default allT t ht) ht rfl rfl
      | some b0 =>
        cases hA : omGet gs t.workerHash with
        | none =>
          rw [hA] at hB
          simp [omGet_nil] at hB
        | some inner0 =>
          rw [hA] at hB
          simp only [Option.getD_some] at hB
          have hbinv : BucketInv allT t.workerHash t.requireFile b0 :=
            hs (t.workerHash, inner0) (omGet_mem_pair _ _ _ hA)
              (t.requireFile, b0) (omGet_mem_pair _ _ _ hB)
          exact routeTest_BucketInv allT t.workerHash t.requireFile b0 t hbinv ht rfl rfl

/-- Helper: folding a list of input tests preserves the whole-structure invariant. -/
lemma fold_StructInv (allT : List TestCase) :
    ∀ (ts : List TestCase) (gs : List (String × List (String × GroupBuckets))),
      (∀ t ∈ ts, t ∈ allT) → StructInv allT gs →
      StructInv allT (ts.foldl addTestToGroups gs) := by
  intro ts
  induction ts with
  | nil =>
    intro gs hts hs
    exact hs
  | cons t ts ih =>
    intro gs hts hs
    rw [List.foldl_cons]
    exact ih (addTestToGroups gs t)
      (fun u hu => hts u (List.mem_cons_of_mem t hu))
      (addTest_StructInv allT gs t (hts t (List.mem_cons_self t ts)) hs)

/-- Helper: every chunk cut from a homogeneous pool satisfies the group invariant. -/
lemma hooksChunks_homog (allT : List TestCase) (wh rf : String) (size : Nat) :
    ∀ (ts acc : List TestCase) (seed : TestCase),
      (seed ∈ allT ∧ seed.workerHash = wh ∧ seed.requireFile = rf) →
      (∀ u ∈ acc, u ∈ allT ∧ u.workerHash = wh ∧ u.requireFile = rf) →
      (∀ u ∈ ts, u ∈ allT ∧ u.workerHash = wh ∧ u.requireFile = rf) →
      ∀ g ∈ hooksChunks size seed acc ts, GInv allT wh rf g := by
  intro ts
  induction ts with
  | nil =>
    intro acc seed hseed hacc hts g hg
    simp only [hooksChunks, List.mem_singleton] at hg
    subst hg
    exact ⟨hseed.2.1, hseed.2.2, ⟨seed, hseed.1, hseed.2.1, rfl⟩, hacc⟩
  | cons t ts ih =>
    intro acc seed hseed hacc hts g hg
    have htt := hts t (List.mem_cons_self t ts)
    have hts2 : ∀ u ∈ ts, u ∈ allT ∧ u.workerHash = wh ∧ u.requireFile = rf :=
      fun u hu => hts u (List.mem_cons_of_mem t hu)
    by_cases h : acc.length ≥ size
    · simp only [hooksChunks, if_pos h, List.mem_cons] at hg
      rcases hg with hg | hg
      · subst hg
        exact ⟨hseed.2.1, hseed.2.2, ⟨seed, hseed.1, hseed.2.1, rfl⟩, hacc⟩
      · refine ih [t] t htt ?_ hts2 g hg
        intro u hu
        simp only [List.mem_singleton] at hu
        subst hu
        exact htt
    · simp only [hooksChunks, if_neg h] at hg
      refine ih (acc ++ [t]) seed hseed ?_ hts2 g hg
      intro u hu
      rcases List.mem_append.mp hu with hu | hu
      · exact hacc u hu
      · simp only [List.mem_singleton] at hu
        subst hu
        exact htt

/-- Helper: every group emitted from an invariant-respecting bucket satisfies the
group invariant. -/
lemma emit_homog (allT : List TestCase) (wh rf : String) (w : Nat) (b : GroupBuckets)
    (hb : BucketInv allT wh rf b) : ∀ g ∈ emitBuckets w b, GInv allT wh rf g := by
  obtain ⟨hbg, hbp, hbh⟩ := hb
  intro g hg
  unfold emitBuckets at hg
  rcases List.mem_append.mp hg with hg1 | hg1
  · rcases List.mem_append.mp hg1 with hg2 | hg2
    · by_cases hG : b.general.tests.length ≠ 0
      · rw [if_pos hG] at hg2
        simp only [List.mem_singleton] at hg2
        subst hg2
        exact hbg
      · rw [if_neg hG] at hg2
        simp at hg2
    · obtain ⟨p, hp, hpe⟩ := List.mem_map.mp hg2
      rw [← hpe]
      exact hbp p hp
  · cases hP : b.parallelWithHooks.tests with
    | nil =>
      rw [hP] at hg1
      simp at hg1
    | cons t ts =>
      rw [hP] at hg1
      have hmem : ∀ u ∈ b.parallelWithHooks.tests,
          u ∈ allT ∧ u.workerHash = wh ∧ u.requireFile = rf := hbh.2.2.2
      rw [hP] at hmem
      have htt := hmem t (List.mem_cons_self t ts)
      refine hooksChunks_homog allT wh rf _ ts [t] t htt ?_ ?_ g hg1
      · intro u hu
        simp only [List.mem_singleton] at hu
        subst hu
        exact htt
      · intro u hu
        exact hmem u (List.mem_cons_of_mem t hu)

/-- Helper: every emitted group carries the keys of the bucket it came from, and all
its member tests are input tests carrying those same keys. -/
lemma createTestGroups_homog (ps : List (List TestCase)) (w : Nat) :
    ∀ g ∈ createTestGroups ps w, ∃ wh rf, GInv ps.flatten wh rf g := by
  intro g hg
  simp only [createTestGroups] at hg
  have hs : StructInv ps.flatten (ps.flatten.foldl addTestToGroups []) := by
    refine fold_StructInv ps.flatten ps.flatten [] (fun t ht => ht) ?_
    intro whp hwhp
    simp at hwhp
  obtain ⟨whp, hwhp, hg2⟩ := List.mem_flatMap.mp hg
  obtain ⟨rfp, hrfp, hg3⟩ := List.mem_flatMap.mp hg2
  exact ⟨whp.1, rfp.1, emit_homog ps.flatten whp.1 rfp.1 w rfp.2
    (hs whp hwhp rfp hrfp) g hg3⟩

/-- C1, counterexample: on the 5-groups-of-2 input with 3 shards, shard 2 receives 4
tests (the groups starting at positions 4 and 6, both inside the nominal range [4,7)),
not the 3 tests the claim states, and shard 3 receives only 2. -/
theorem C1_counterexample :
    ((filterForCurrentShard (some { current := 2, total := 3 }) shardExampleGroups).map
        (fun g => g.tests.length)).sum = 4 ∧
    ¬ ((filterForCurrentShard (some { current := 2, total := 3 }) shardExampleGroups).map
        (fun g => g.tests.length)).sum = 3 ∧
    ((filterForCurrentShard (some { current := 3, total := 3 }) shardExampleGroups).map
        (fun g => g.tests.length)).sum = 2 := by
  decide

/-- C1, amended: for 5 groups of 2 tests (10 total) and 3 shards the partitioner uses
base 3 and extra 1, assigns shard 1 the first two groups (4 tests), shard 2 the next
two groups (4 tests), shard 3 the last group (2 tests); the shard sizes sum to 10 and
no group is split: each input group is returned whole by exactly one shard, the one
whose range contains its first test. -/
theorem C1_amended :
    ((shardExampleGroups.map (fun g => g.tests.length)).sum = 10
      ∧ (shardExampleGroups.map (fun g => g.tests.length)).sum / 3 = 3
      ∧ (shardExampleGroups.map (fun g => g.tests.length)).sum - 3 * 3 = 1)
    ∧ filterForCurrentShard (some { current := 1, total := 3 }) shardExampleGroups
        = shardExampleGroups.take 2
    ∧ filterForCurrentShard (some { current := 2, total := 3 }) shardExampleGroups
        = (shardExampleGroups.drop 2).take 2
    ∧ filterForCurrentShard (some { current := 3, total := 3 }) shardExampleGroups
        = shardExampleGroups.drop 4
    ∧ (((filterForCurrentShard (some { current := 1, total := 3 }) shardExampleGroups).map
          (fun g => g.tests.length)).sum
        + ((filterForCurrentShard (some { current := 2, total := 3 }) shardExampleGroups).map
            (fun g => g.tests.length)).sum
        + ((filterForCurrentShard (some { current := 3, total := 3 }) shardExampleGroups).map
            (fun g => g.tests.length)).sum = 10)
    ∧ (∀ g ∈ shardExampleGroups,
        (List.range 3).countP (fun c =>
          decide (g ∈ filterForCurrentShard (some { current := c + 1, total := 3 })
            shardExampleGroups)) = 1) := by
  decide

/-- C2, counterexample: with ABQ active, a configuration with 4 workers and sharding
enabled produces no fatal error — the run is not aborted; instead the configuration
check silently rewrites the config to 1 worker and no shard. -/
theorem C2_counterexample :
    (checkForConfigurationIncompatibility true c2Config []).2 = []
    ∧ configCheckAbortsRun true c2Config [] = false
    ∧ (checkForConfigurationIncompatibility true c2Config []).1.workers = 1
    ∧ (checkForConfigurationIncompatibility true c2Config []).1.shard = none := by
  decide

/-- Helper: applyAbqConfiguration always yields the config with workers forced to 1
and the shard cleared (a no-op when the config already satisfied both). -/
lemma applyAbq_fst (config : FullConfig) :
    (applyAbqConfiguration config).1 = { config with workers := 1, shard := none } := by
  rcases config with ⟨w, sh, fp, ps⟩
  unfold applyAbqConfiguration
  by_cases hw : w = 1 <;> cases sh <;> simp [hw]

/-- C2, amended: whenever ABQ is active, a worker count other than 1 and an enabled
shard configuration are silently corrected before the run (workers forced to 1, shard
cleared), with only console warnings; they are never fatal: the fatal-error outcome is
exactly what it would be for the already-corrected configuration, and a warning is
printed iff the workers or shard value was overridden. -/
theorem C2_theorem (config : FullConfig) (projectFilter : List String) :
    (checkForConfigurationIncompatibility true config projectFilter).1.workers = 1
    ∧ (checkForConfigurationIncompatibility true config projectFilter).1.shard = none
    ∧ (checkForConfigurationIncompatibility true config projectFilter).2 =
        (checkForConfigurationIncompatibility true
          { config with workers := 1, shard := none } projectFilter).2
    ∧ ((applyAbqConfiguration config).2 ≠ [] ↔
        (config.workers ≠ 1 ∨ config.shard.isSome = true)) := by
  have hsame := applyAbq_fst config
  have hid := applyAbq_fst { config with workers := 1, shard := none }
  refine ⟨?_, ?_, ?_, ?_⟩
  · simp [checkForConfigurationIncompatibility, hsame]
  · simp [checkForConfigurationIncompatibility, hsame]
  · simp [checkForConfigurationIncompatibility, hsame, hid]
  · rcases config with ⟨w, sh, fp, ps⟩
    unfold applyAbqConfiguration
    by_cases hw : w = 1 <;> cases sh <;> simp [hw]

/-- C9: the internal-to-wire status translation is total over the five internal
statuses (it is a total function on the TestStatus inductive) and maps passed to
success, timedOut to timed_out, skipped to skipped, failed to failure and interrupted
to error. -/
theorem C9_theorem :
    translateStatus .passed = .success
    ∧ translateStatus .timedOut = .timed_out
    ∧ translateStatus .skipped = .skipped
    ∧ translateStatus .failed = .failure
    ∧ translateStatus .interrupted = .error := by
  decide

/-- C8: the runtime field of an outbound test_result message is the millisecond
duration times 1,000,000 truncated toward zero to an integer: for nonnegative
durations it is the unique integer within 1 below the exact product, and the two
concrete cases give 1.5 ms = 1500000 ns and 1.9999 ms = 1999900 ns (truncated, not
rounded). -/
theorem C8_theorem :
    (∀ (tc : TestCase) (res : TestResult), 0 ≤ res.duration →
      ((submitTestResultMessage tc res).runtime : ℚ) ≤ res.duration * 1000000
      ∧ res.duration * 1000000 - 1 < ((submitTestResultMessage tc res).runtime : ℚ))
    ∧ (submitTestResultMessage sampleTest { status := .passed, duration := 3 / 2 }).runtime
        = 1500000
    ∧ (submitTestResultMessage sampleTest
        { status := .passed, duration := 19999 / 10000 }).runtime = 1999900 := by
  refine ⟨?_, ?_, ?_⟩
  · intro tc res hres
    have hq : (0 : ℚ) ≤ res.duration * 1000000 := by positivity
    simp only [submitTestResultMessage, jsMathTrunc, if_pos hq]
    constructor
    · exact Int.floor_le _
    · have := Int.lt_floor_add_one (res.duration * 1000000)
      linarith
  · have : ((3 : ℚ) / 2) * 1000000 = (1500000 : ℤ) := by norm_num
    simp [submitTestResultMessage, jsMathTrunc, this]
  · have : ((19999 : ℚ) / 10000) * 1000000 = (1999900 : ℤ) := by norm_num
    simp [submitTestResultMessage, jsMathTrunc, this]

/-- C4: evaluation of the dispatcher at the failing input.  With one queued group
(sole test id t1) and inbound sequence [bogus, t1, end-of-stream], the unresolvable
id bogus is logged on the console without crashing, but _scheduleJob then returns
without re-invoking itself, so the remaining messages are never read: the queue stays
nonempty, no result is submitted, t1 never runs, and the run never reaches the
finished state — it blocks indefinitely instead of continuing with the next inbound
message as the claim states. -/
theorem C4_theorem :
    (runAbqDispatcher [mkGroup1 "p" "t1" true] [] [some "bogus", some "t1", none]).errorLog
        = ["could not find job for test case id bogus"]
    ∧ (runAbqDispatcher [mkGroup1 "p" "t1" true] [] [some "bogus", some "t1", none]).finished
        = false
    ∧ (runAbqDispatcher [mkGroup1 "p" "t1" true] [] [some "bogus", some "t1", none]).queue
        = [mkGroup1 "p" "t1" true]
    ∧ (runAbqDispatcher [mkGroup1 "p" "t1" true] [] [some "bogus", some "t1", none]).outbound
        = []
    ∧ getResults (runAbqDispatcher [mkGroup1 "p" "t1" true] []
        [some "bogus", some "t1", none]) "t1" = []
    ∧ (runAbqDispatcher [mkGroup1 "p" "t1" true] [] [some "bogus", some "t1", none]).events
        = [] := by
  decide

/-- C10: when the inbound stream ends while queued groups were never named, the queue
is replaced by the empty queue and the run reaches the finished state, and every test
of a never-named group keeps an empty result list, receives no reporting event and
has no test_result message written for it. -/
theorem C10_theorem (gs : List TestGroup) (named : List String) (g : TestGroup)
    (hmem : g ∈ gs)
    (hdisj : ∀ g1 ∈ gs, ∀ g2 ∈ gs, g1 ≠ g2 →
      ∀ t1 ∈ g1.tests, ∀ t2 ∈ g2.tests, t1.id ≠ t2.id)
    (hnamedres : ∀ id ∈ named, ∃ g2 ∈ gs, firstTestId g2 = some id)
    (hnameddup : named.Nodup)
    (hnotnamed : ∀ id ∈ named, firstTestId g ≠ some id) :
    (runAbqDispatcher gs [] (named.map (fun id => some id) ++ [none])).queue = []
    ∧ (runAbqDispatcher gs [] (named.map (fun id => some id) ++ [none])).finished = true
    ∧ ∀ t ∈ g.tests,
        getResults (runAbqDispatcher gs [] (named.map (fun id => some id) ++ [none])) t.id
          = []
        ∧ (runAbqDispatcher gs []
            (named.map (fun id => some id) ++ [none])).events.filter (eventMentions t.id)
          = []
        ∧ (runAbqDispatcher gs []
            (named.map (fun id => some id) ++ [none])).outbound.filter
              (fun m => decide (m.id = t.id)) = [] := by
  have hgs : gs ≠ [] := List.ne_nil_of_mem hmem
  have hinit : checkFinished (initState gs []) = initState gs [] :=
    checkFinished_of_ne_nil _ hgs
  have hrun : runAbqDispatcher gs [] (named.map (fun id => some id) ++ [none])
      = scheduleJob (named.map (fun id => some id) ++ [none]) (initState gs []) := by
    unfold runAbqDispatcher
    rw [hinit]
  rw [hrun]
  have hsome : ∀ id ∈ named, (omGet (initState gs []).queueIndexedByTestId id).isSome
      = true := by
    intro id hid
    have h2 : (omGet (gs.foldl indexStep []) id).isSome = true :=
      indexFold_isSome gs [] id (Or.inr (hnamedres id hid))
    exact h2
  obtain ⟨hq, hf⟩ := scheduleJob_reaches_eos named (initState gs []) hnameddup hsome rfl
  refine ⟨hq, hf, ?_⟩
  intro t ht
  have hres : ∀ id job, some id ∈ named.map (fun id => some id) ++ [none] →
      omGet (initState gs []).queueIndexedByTestId id = some job →
      ∀ u ∈ job.tests, u.id ≠ t.id := by
    intro id job hidmem hget
    have hidn : id ∈ named := by
      rcases List.mem_append.mp hidmem with h1 | h1
      · obtain ⟨a, ha, he⟩ := List.mem_map.mp h1
        injection he with he2
        rw [← he2]
        exact ha
      · simp at h1
    have hget2 : omGet (gs.foldl indexStep []) id = some job := hget
    rcases indexFold_get_mem gs [] id job hget2 with ⟨hjmem, hjfid⟩ | hbad
    · intro u hu heq
      by_cases hjg : job = g
      · subst hjg
        exact hnotnamed id hidn hjfid
      · exact hdisj job hjmem g hmem hjg u hu t ht heq
    · rw [omGet_nil] at hbad
      cases hbad
  have hun : t.id ∉ unusedTestIds (initState gs []) := by
    intro hx
    rw [mem_unusedTestIds] at hx
    obtain ⟨l, hl, _⟩ := hx
    have hl2 : l ∈ ([] : List (String × List TestGroup)).map (fun p => p.2) := hl
    simp at hl2
  obtain ⟨u1, u2, u3⟩ :=
    scheduleJob_untouched (named.map (fun id => some id) ++ [none]) (initState gs []) t.id
      hres hun
  refine ⟨?_, ?_, ?_⟩
  · rw [u1]
    rfl
  · rw [u2]
    rfl
  · rw [u3]
    rfl

/-- C10, witness: two queued single-test groups, only the first named before
end-of-stream; the never-named second group is silently discarded. -/
theorem C10_witness :
    (runAbqDispatcher [mkGroup1 "p" "g1" true, mkGroup1 "p" "g2" true] []
        (["g1"].map (fun id => some id) ++ [none])).queue = []
    ∧ (runAbqDispatcher [mkGroup1 "p" "g1" true, mkGroup1 "p" "g2" true] []
        (["g1"].map (fun id => some id) ++ [none])).finished = true
    ∧ ∀ t ∈ (mkGroup1 "p" "g2" true).tests,
        getResults (runAbqDispatcher [mkGroup1 "p" "g1" true, mkGroup1 "p" "g2" true] []
          (["g1"].map (fun id => some id) ++ [none])) t.id = []
        ∧ (runAbqDispatcher [mkGroup1 "p" "g1" true, mkGroup1 "p" "g2" true] []
            (["g1"].map (fun id => some id) ++ [none])).events.filter
              (eventMentions t.id) = []
        ∧ (runAbqDispatcher [mkGroup1 "p" "g1" true, mkGroup1 "p" "g2" true] []
            (["g1"].map (fun id => some id) ++ [none])).outbound.filter
              (fun m => decide (m.id = t.id)) = [] :=
  C10_theorem [mkGroup1 "p" "g1" true, mkGroup1 "p" "g2" true] ["g1"]
    (mkGroup1 "p" "g2" true) (by decide) (by decide) (by decide) (by decide) (by decide)

/-- C5: with three queued groups and no setup groups, the inbound order g2, g1, g3
followed by end-of-stream produces exactly the result messages of g2, g1, g3 in that
order (each message is written in its own cycle, before the next inbound message is
processed), each carrying the translated first (and only) result of the group's first
test; the queue is empty and the run is finished at the end. -/
theorem C5_theorem (g1 g2 g3 : TestGroup) (t1 t2 t3 : TestCase)
    (tl1 tl2 tl3 : List TestCase)
    (h1 : g1.tests = t1 :: tl1) (h2 : g2.tests = t2 :: tl2) (h3 : g3.tests = t3 :: tl3)
    (hd12 : ∀ u ∈ g1.tests, ∀ v ∈ g2.tests, u.id ≠ v.id)
    (hd13 : ∀ u ∈ g1.tests, ∀ v ∈ g3.tests, u.id ≠ v.id)
    (hd23 : ∀ u ∈ g2.tests, ∀ v ∈ g3.tests, u.id ≠ v.id) :
    (runAbqDispatcher [g1, g2, g3] []
        [some t2.id, some t1.id, some t3.id, none]).outbound
      = [submitTestResultMessage t2 { status := t2.runStatus, duration := t2.duration },
         submitTestResultMessage t1 { status := t1.runStatus, duration := t1.duration },
         submitTestResultMessage t3 { status := t3.runStatus, duration := t3.duration }]
    ∧ (runAbqDispatcher [g1, g2, g3] []
        [some t2.id, some t1.id, some t3.id, none]).queue = []
    ∧ (runAbqDispatcher [g1, g2, g3] []
        [some t2.id, some t1.id, some t3.id, none]).finished = true := by
  have m1 : t1 ∈ g1.tests := by
    rw [h1]
    exact List.mem_cons_self _ _
  have m2 : t2 ∈ g2.tests := by
    rw [h2]
    exact List.mem_cons_self _ _
  have m3 : t3 ∈ g3.tests := by
    rw [h3]
    exact List.mem_cons_self _ _
  have ht12 : t1.id ≠ t2.id := hd12 t1 m1 t2 m2
  have ht13 : t1.id ≠ t3.id := hd13 t1 m1 t3 m3
  have ht23 : t2.id ≠ t3.id := hd23 t2 m2 t3 m3
  have hidx : (initState [g1, g2, g3] []).queueIndexedByTestId
      = omSet (omSet (omSet [] t1.id g1) t2.id g2) t3.id g3 := by
    show [g1, g2, g3].foldl indexStep [] = _
    simp [indexStep, h1, h2, h3]
  have hrun : runAbqDispatcher [g1, g2, g3] [] [some t2.id, some t1.id, some t3.id, none]
      = scheduleJob [some t2.id, some t1.id, some t3.id, none]
          (initState [g1, g2, g3] []) := by
    unfold runAbqDispatcher
    rw [checkFinished_of_ne_nil _ (List.cons_ne_nil g1 [g2, g3])]
  -- cycle 1: message t2 resolves g2
  have hg2get : omGet (initState [g1, g2, g3] []).queueIndexedByTestId t2.id = some g2 := by
    rw [hidx, omGet_set, if_neg ht23, omGet_set, if_pos rfl]
  obtain ⟨c1a, c2a, c3a, c4a, c5a, c6a, c7a, c8a, c9a, c10a⟩ :=
    runCycle_clean g2
      { initState [g1, g2, g3] [] with
        queueIndexedByTestId :=
          omDelete (initState [g1, g2, g3] []).queueIndexedByTestId t2.id }
      t2 tl2 h2 (List.not_mem_nil g2.projectId) rfl rfl (List.cons_ne_nil g1 [g2, g3])
  have q1 : (runCycle g2
      { initState [g1, g2, g3] [] with
        queueIndexedByTestId :=
          omDelete (initState [g1, g2, g3] []).queueIndexedByTestId t2.id }).queue
      = [g1, g2, g3] := c1a
  have f1 : (runCycle g2
      { initState [g1, g2, g3] [] with
        queueIndexedByTestId :=
          omDelete (initState [g1, g2, g3] []).queueIndexedByTestId t2.id
        }).failedSetupProjectIds = [] := c3a
  have u1 : (runCycle g2
      { initState [g1, g2, g3] [] with
        queueIndexedByTestId :=
          omDelete (initState [g1, g2, g3] []).queueIndexedByTestId t2.id
        }).unusedProjectSetupGroupsByProjectId = [] := c4a
  have b1 : (runCycle g2
      { initState [g1, g2, g3] [] with
        queueIndexedByTestId :=
          omDelete (initState [g1, g2, g3] []).queueIndexedByTestId t2.id
        }).workerBusy = false := c5a
  have fin1 : (runCycle g2
      { initState [g1, g2, g3] [] with
        queueIndexedByTestId :=
          omDelete (initState [g1, g2, g3] []).queueIndexedByTestId t2.id
        }).finished = false := c6a
  have hfilter21 : g2.tests.filter (fun u => decide (u.id = t1.id)) = [] := by
    rw [List.filter_eq_nil_iff]
    intro v hv
    simp [(hd12 t1 m1 v hv).symm]
  have hfilter23 : g2.tests.filter (fun u => decide (u.id = t3.id)) = [] := by
    rw [List.filter_eq_nil_iff]
    intro v hv
    simp [(hd23 v hv t3 m3)]
  have r1t1 : getResults (runCycle g2
      { initState [g1, g2, g3] [] with
        queueIndexedByTestId :=
          omDelete (initState [g1, g2, g3] []).queueIndexedByTestId t2.id }) t1.id
      = [] := by
    rw [c9a t1.id, hfilter21]
    rfl
  have r1t3 : getResults (runCycle g2
      { initState [g1, g2, g3] [] with
        queueIndexedByTestId :=
          omDelete (initState [g1, g2, g3] []).queueIndexedByTestId t2.id }) t3.id
      = [] := by
    rw [c9a t3.id, hfilter23]
    rfl
  have o1 : (runCycle g2
      { initState [g1, g2, g3] [] with
        queueIndexedByTestId :=
          omDelete (initState [g1, g2, g3] []).queueIndexedByTestId t2.id }).outbound
      = [submitTestResultMessage t2 { status := t2.runStatus, duration := t2.duration }] := by
    rw [c8a]
    rfl
  have hg1get : omGet (runCycle g2
      { initState [g1, g2, g3] [] with
        queueIndexedByTestId :=
          omDelete (initState [g1, g2, g3] []).queueIndexedByTestId t2.id
        }).queueIndexedByTestId t1.id = some g1 := by
    rw [c2a]
    have hdel : omGet
        (omDelete (initState [g1, g2, g3] []).queueIndexedByTestId t2.id) t1.id
        = omGet (initState [g1, g2, g3] []).queueIndexedByTestId t1.id := by
      rw [omGet_delete, if_neg ht12]
    rw [hdel, hidx, omGet_set, if_neg ht13, omGet_set, if_neg ht12, omGet_set, if_pos rfl]
  rw [hrun, scheduleJob_known t2.id _ _ g2 hg2get,
    scheduleJob_known t1.id _ _ g1 hg1get]
  -- cycle 2: message t1 resolves g1; abbreviate the state before it
  generalize hS1 : runCycle g2
      { initState [g1, g2, g3] [] with
        queueIndexedByTestId :=
          omDelete (initState [g1, g2, g3] []).queueIndexedByTestId t2.id } = S1
        at q1 f1 u1 b1 fin1 r1t1 r1t3 o1 ⊢
  obtain ⟨c1b, c2b, c3b, c4b, c5b, c6b, c7b, c8b, c9b, c10b⟩ :=
    runCycle_clean g1
      { S1 with queueIndexedByTestId := omDelete S1.queueIndexedByTestId t1.id }
      t1 tl1 h1
      (show g1.projectId ∉ S1.failedSetupProjectIds by rw [f1]; simp)
      (show S1.unusedProjectSetupGroupsByProjectId = [] from u1)
      (show getResults S1 t1.id = [] from r1t1)
      (show S1.queue ≠ [] by rw [q1]; exact List.cons_ne_nil g1 [g2, g3])
  have q2 : (runCycle g1
      { S1 with queueIndexedByTestId := omDelete S1.queueIndexedByTestId t1.id }).queue
      = [g1, g2, g3] := c1b.trans q1
  have f2 : (runCycle g1
      { S1 with queueIndexedByTestId := omDelete S1.queueIndexedByTestId t1.id
        }).failedSetupProjectIds = [] := c3b.trans f1
  have b2 : (runCycle g1
      { S1 with queueIndexedByTestId := omDelete S1.queueIndexedByTestId t1.id
        }).workerBusy = false := c5b
  have fin2 : (runCycle g1
      { S1 with queueIndexedByTestId := omDelete S1.queueIndexedByTestId t1.id
        }).finished = false := c6b.trans fin1
  have u2 : (runCycle g1
      { S1 with queueIndexedByTestId := omDelete S1.queueIndexedByTestId t1.id
        }).unusedProjectSetupGroupsByProjectId = [] := c4b
  have hfilter13 : g1.tests.filter (fun u => decide (u.id = t3.id)) = [] := by
    rw [List.filter_eq_nil_iff]
    intro v hv
    simp [(hd13 v hv t3 m3)]
  have r2t3 : getResults (runCycle g1
      { S1 with queueIndexedByTestId := omDelete S1.queueIndexedByTestId t1.id }) t3.id
      = [] := by
    rw [c9b t3.id]
    have : getResults { S1 with
        queueIndexedByTestId := omDelete S1.queueIndexedByTestId t1.id } t3.id = [] := r1t3
    rw [this, hfilter13]
    rfl
  have o2 : (runCycle g1
      { S1 with queueIndexedByTestId := omDelete S1.queueIndexedByTestId t1.id }).outbound
      = [submitTestResultMessage t2 { status := t2.runStatus, duration := t2.duration },
         submitTestResultMessage t1 { status := t1.runStatus, duration := t1.duration }] := by
    have hstep : (runCycle g1
        { S1 with queueIndexedByTestId := omDelete S1.queueIndexedByTestId t1.id }).outbound
        = S1.outbound
          ++ [submitTestResultMessage t1 { status := t1.runStatus, duration := t1.duration }] :=
      c8b
    rw [hstep, o1]
    rfl
  have hg3get : omGet (runCycle g1
      { S1 with queueIndexedByTestId := omDelete S1.queueIndexedByTestId t1.id
        }).queueIndexedByTestId t3.id = some g3 := by
    rw [c2b]
    have hdel2 : omGet (omDelete S1.queueIndexedByTestId t1.id) t3.id
        = omGet S1.queueIndexedByTestId t3.id := by
      rw [omGet_delete, if_neg (Ne.symm ht13)]
    have hS1idx : omGet S1.queueIndexedByTestId t3.id = some g3 := by
      rw [← hS1, c2a]
      have hdel1 : omGet
          (omDelete (initState [g1, g2, g3] []).queueIndexedByTestId t2.id) t3.id
          = omGet (initState [g1, g2, g3] []).queueIndexedByTestId t3.id := by
        rw [omGet_delete, if_neg (Ne.symm ht23)]
      rw [hdel1, hidx, omGet_set, if_pos rfl]
    exact hdel2.trans hS1idx
  rw [scheduleJob_known t3.id _ _ g3 hg3get]
  -- cycle 3: message t3 resolves g3; abbreviate again
  generalize hS2 : runCycle g1
      { S1 with queueIndexedByTestId := omDelete S1.queueIndexedByTestId t1.id } = S2
        at q2 f2 b2 fin2 r2t3 o2 u2 ⊢
  obtain ⟨c1c, c2c, c3c, c4c, c5c, c6c, c7c, c8c, c9c, c10c⟩ :=
    runCycle_clean g3
      { S2 with queueIndexedByTestId := omDelete S2.queueIndexedByTestId t3.id }
      t3 tl3 h3
      (show g3.projectId ∉ S2.failedSetupProjectIds by rw [f2]; simp)
      (show S2.unusedProjectSetupGroupsByProjectId = [] from u2)
      (show getResults S2 t3.id = [] from r2t3)
      (show S2.queue ≠ [] by rw [q2]; exact List.cons_ne_nil g1 [g2, g3])
  have b3 : (runCycle g3
      { S2 with queueIndexedByTestId := omDelete S2.queueIndexedByTestId t3.id
        }).workerBusy = false := c5c
  have o3 : (runCycle g3
      { S2 with queueIndexedByTestId := omDelete S2.queueIndexedByTestId t3.id }).outbound
      = [submitTestResultMessage t2 { status := t2.runStatus, duration := t2.duration },
         submitTestResultMessage t1 { status := t1.runStatus, duration := t1.duration },
         submitTestResultMessage t3 { status := t3.runStatus, duration := t3.duration }] := by
    have hstep : (runCycle g3
        { S2 with queueIndexedByTestId := omDelete S2.queueIndexedByTestId t3.id }).outbound
        = S2.outbound
          ++ [submitTestResultMessage t3 { status := t3.runStatus, duration := t3.duration }] :=
      c8c
    rw [hstep, o2]
    rfl
  -- end of stream
  generalize hS3 : runCycle g3
      { S2 with queueIndexedByTestId := omDelete S2.queueIndexedByTestId t3.id } = S3
        at b3 o3 ⊢
  rw [scheduleJob_eos]
  obtain ⟨k1, k2, k3, k4, k5, k6, k7, k8, k9⟩ := checkFinished_fields { S3 with queue := [] }
  refine ⟨?_, ?_, ?_⟩
  · rw [k7]
    exact o3
  · rw [k1]
  · rw [checkFinished_finished]
    have : ({ S3 with queue := [] } : DispatcherState).workerBusy = false := b3
    simp [this]
    exact Or.inr b3

/-- C3: in the remote-coordinated dispatcher, before an ordinary group runs for a
project not marked setup-failed, the pending setup groups for that project are run at
most once in declared order, halting and poisoning the project at the first
setup-test failure (the second pending setup group never runs), with the consumed
pool entry removed regardless of outcome; and once poisoned, every test of each
subsequently dispatched group of that project ends skipped without execution.  Here:
a setup group whose sole test fails, followed by two ordinary groups of the same
project, leaves every test of both ordinary groups with exactly one skipped result
and only begin/end-skipped reporting events. -/
theorem C3_theorem (gA gB setupA setupB : TestGroup) (tS tA tB : TestCase)
    (tlA tlB : List TestCase)
    (hA : gA.tests = tA :: tlA) (hB : gB.tests = tB :: tlB)
    (hsA : setupA.tests = [tS]) (htS : tS.passes = false)
    (hpA : setupA.projectId = gA.projectId)
    (hpB : setupB.projectId = gA.projectId)
    (hgB : gB.projectId = gA.projectId)
    (hndA : (gA.tests.map (fun u => u.id)).Nodup)
    (hndB : (gB.tests.map (fun u => u.id)).Nodup)
    (hdAB : ∀ u ∈ gA.tests, ∀ v ∈ gB.tests, u.id ≠ v.id)
    (hdSA : ∀ u ∈ gA.tests, u.id ≠ tS.id)
    (hdSB : ∀ u ∈ gB.tests, u.id ≠ tS.id)
    (hdB2A : ∀ u ∈ setupB.tests, ∀ v ∈ gA.tests, u.id ≠ v.id)
    (hdB2B : ∀ u ∈ setupB.tests, ∀ v ∈ gB.tests, u.id ≠ v.id)
    (hdB2S : ∀ u ∈ setupB.tests, u.id ≠ tS.id) :
    getResults (runAbqDispatcher [gA, gB] [setupA, setupB]
        [some tA.id, some tB.id, none]) tS.id
      = [{ status := tS.runStatus, duration := tS.duration }]
    ∧ (∀ u ∈ setupB.tests,
        getResults (runAbqDispatcher [gA, gB] [setupA, setupB]
          [some tA.id, some tB.id, none]) u.id = [])
    ∧ gA.projectId ∈ (runAbqDispatcher [gA, gB] [setupA, setupB]
        [some tA.id, some tB.id, none]).failedSetupProjectIds
    ∧ omGet (runAbqDispatcher [gA, gB] [setupA, setupB]
        [some tA.id, some tB.id, none]).unusedProjectSetupGroupsByProjectId gA.projectId
      = none
    ∧ (∀ u ∈ gA.tests,
        getResults (runAbqDispatcher [gA, gB] [setupA, setupB]
          [some tA.id, some tB.id, none]) u.id
          = [{ status := .skipped, duration := 0 }])
    ∧ (∀ u ∈ gB.tests,
        getResults (runAbqDispatcher [gA, gB] [setupA, setupB]
          [some tA.id, some tB.id, none]) u.id
          = [{ status := .skipped, duration := 0 }])
    ∧ (runAbqDispatcher [gA, gB] [setupA, setupB]
        [some tA.id, some tB.id, none]).events
      = ([ReporterEvent.testBegin tS.id, ReporterEvent.testEnd tS.id tS.runStatus]
          ++ gA.tests.flatMap (fun u =>
              [ReporterEvent.testBegin u.id, ReporterEvent.testEnd u.id .skipped]))
        ++ gB.tests.flatMap (fun u =>
            [ReporterEvent.testBegin u.id, ReporterEvent.testEnd u.id .skipped])
    ∧ (runAbqDispatcher [gA, gB] [setupA, setupB]
        [some tA.id, some tB.id, none]).outbound
      = [submitTestResultMessage tA { status := .skipped, duration := 0 },
         submitTestResultMessage tB { status := .skipped, duration := 0 }]
    ∧ (runAbqDispatcher [gA, gB] [setupA, setupB]
        [some tA.id, some tB.id, none]).queue = []
    ∧ (runAbqDispatcher [gA, gB] [setupA, setupB]
        [some tA.id, some tB.id, none]).finished = true := by
  have mA : tA ∈ gA.tests := by
    rw [hA]
    exact List.mem_cons_self _ _
  have mB : tB ∈ gB.tests := by
    rw [hB]
    exact List.mem_cons_self _ _
  have htAB : tA.id ≠ tB.id := hdAB tA mA tB mB
  have hidx : (initState [gA, gB] [setupA, setupB]).queueIndexedByTestId
      = omSet (omSet [] tA.id gA) tB.id gB := by
    show [gA, gB].foldl indexStep [] = _
    simp [indexStep, hA, hB]
  have hpoolinit : (initState [gA, gB] [setupA, setupB]).unusedProjectSetupGroupsByProjectId
      = [(gA.projectId, [setupA, setupB])] := by
    show [setupA, setupB].foldl setupPoolStep [] = _
    simp [setupPoolStep, hpA, hpB, omGet_nil, omGet_cons, omSet]
  have hrun : runAbqDispatcher [gA, gB] [setupA, setupB] [some tA.id, some tB.id, none]
      = scheduleJob [some tA.id, some tB.id, none]
          (initState [gA, gB] [setupA, setupB]) := by
    unfold runAbqDispatcher
    rw [checkFinished_of_ne_nil _ (List.cons_ne_nil gA [gB])]
  have hget1 : omGet (initState [gA, gB] [setupA, setupB]).queueIndexedByTestId tA.id
      = some gA := by
    rw [hidx, omGet_set, if_neg htAB, omGet_set, if_pos rfl]
  rw [hrun, scheduleJob_known tA.id _ _ gA hget1]
  obtain ⟨c1a, c2a, c3a, c4a, c5a, c6a, c7a, c8a, c9a, c10a⟩ :=
    runCycle_setupFails gA setupA setupB tS tA tlA
      { initState [gA, gB] [setupA, setupB] with
        queueIndexedByTestId :=
          omDelete (initState [gA, gB] [setupA, setupB]).queueIndexedByTestId tA.id }
      hA rfl
      (show ({ initState [gA, gB] [setupA, setupB] with
          queueIndexedByTestId :=
            omDelete (initState [gA, gB] [setupA, setupB]).queueIndexedByTestId tA.id
          } : DispatcherState).unusedProjectSetupGroupsByProjectId
        = [(gA.projectId, [setupA, setupB])] from hpoolinit)
      hsA htS hpA rfl (hdSA tA mA) (List.cons_ne_nil gA [gB])
  have q1 : (runCycle gA
      { initState [gA, gB] [setupA, setupB] with
        queueIndexedByTestId :=
          omDelete (initState [gA, gB] [setupA, setupB]).queueIndexedByTestId tA.id
        }).queue = [gA, gB] := c1a
  have f1 : (runCycle gA
      { initState [gA, gB] [setupA, setupB] with
        queueIndexedByTestId :=
          omDelete (initState [gA, gB] [setupA, setupB]).queueIndexedByTestId tA.id
        }).failedSetupProjectIds = [gA.projectId] := c5a
  have u1 : (runCycle gA
      { initState [gA, gB] [setupA, setupB] with
        queueIndexedByTestId :=
          omDelete (initState [gA, gB] [setupA, setupB]).queueIndexedByTestId tA.id
        }).unusedProjectSetupGroupsByProjectId = [] := c6a
  have b1 : (runCycle gA
      { initState [gA, gB] [setupA, setupB] with
        queueIndexedByTestId :=
          omDelete (initState [gA, gB] [setupA, setupB]).queueIndexedByTestId tA.id
        }).workerBusy = false := c4a
  have fin1 : (runCycle gA
      { initState [gA, gB] [setupA, setupB] with
        queueIndexedByTestId :=
          omDelete (initState [gA, gB] [setupA, setupB]).queueIndexedByTestId tA.id
        }).finished = false := c7a
  have o1 : (runCycle gA
      { initState [gA, gB] [setupA, setupB] with
        queueIndexedByTestId :=
          omDelete (initState [gA, gB] [setupA, setupB]).queueIndexedByTestId tA.id
        }).outbound = [submitTestResultMessage tA { status := .skipped, duration := 0 }] := by
    rw [c8a]
    rfl
  have r1 : ∀ tid, getResults (runCycle gA
      { initState [gA, gB] [setupA, setupB] with
        queueIndexedByTestId :=
          omDelete (initState [gA, gB] [setupA, setupB]).queueIndexedByTestId tA.id
        }) tid
      = (([] : List TestResult)
          ++ (if tid = tS.id
              then [({ status := tS.runStatus, duration := tS.duration } : TestResult)]
              else []))
        ++ (gA.tests.filter (fun u => decide (u.id = tid))).map
            (fun _ => ({ status := .skipped, duration := 0 } : TestResult)) :=
    fun tid => c9a tid
  have e1 : (runCycle gA
      { initState [gA, gB] [setupA, setupB] with
        queueIndexedByTestId :=
          omDelete (initState [gA, gB] [setupA, setupB]).queueIndexedByTestId tA.id
        }).events
      = (([] : List ReporterEvent)
          ++ [ReporterEvent.testBegin tS.id, ReporterEvent.testEnd tS.id tS.runStatus])
        ++ gA.tests.flatMap (fun u =>
            [ReporterEvent.testBegin u.id, ReporterEvent.testEnd u.id .skipped]) := c10a
  have hget2 : omGet (runCycle gA
      { initState [gA, gB] [setupA, setupB] with
        queueIndexedByTestId :=
          omDelete (initState [gA, gB] [setupA, setupB]).queueIndexedByTestId tA.id
        }).queueIndexedByTestId tB.id = some gB := by
    rw [c2a]
    have hdel : omGet
        (omDelete (initState [gA, gB] [setupA, setupB]).queueIndexedByTestId tA.id) tB.id
        = omGet (initState [gA, gB] [setupA, setupB]).queueIndexedByTestId tB.id := by
      rw [omGet_delete, if_neg (Ne.symm htAB)]
    rw [hdel, hidx, omGet_set, if_pos rfl]
  rw [scheduleJob_known tB.id _ _ gB hget2]
  generalize hS1 : runCycle gA
      { initState [gA, gB] [setupA, setupB] with
        queueIndexedByTestId :=
          omDelete (initState [gA, gB] [setupA, setupB]).queueIndexedByTestId tA.id } = S1
        at q1 f1 u1 b1 fin1 o1 r1 e1 ⊢
  have hfilterAB : ∀ tid, (∀ v ∈ gA.tests, v.id ≠ tid) →
      gA.tests.filter (fun u => decide (u.id = tid)) = [] := by
    intro tid hv
    rw [List.filter_eq_nil_iff]
    intro v hv2
    simp [hv v hv2]
  obtain ⟨c1b, c2b, c3b, c4b, c5b, c6b, c7b, c8b, c9b, c10b⟩ :=
    runCycle_poisoned gB
      { S1 with queueIndexedByTestId := omDelete S1.queueIndexedByTestId tB.id }
      tB tlB hB
      (show gB.projectId ∈ S1.failedSetupProjectIds by
        rw [f1, hgB]
        exact List.mem_cons_self _ _)
      (show getResults S1 tB.id = [] by
        rw [r1 tB.id, if_neg (hdSB tB mB),
          hfilterAB tB.id (fun v hv => hdAB v hv tB mB)]
        rfl)
      (show S1.queue ≠ [] by
        rw [q1]
        exact List.cons_ne_nil gA [gB])
  have q2 : (runCycle gB
      { S1 with queueIndexedByTestId := omDelete S1.queueIndexedByTestId tB.id
        }).queue = [gA, gB] := c1b.trans q1
  have f2 : (runCycle gB
      { S1 with queueIndexedByTestId := omDelete S1.queueIndexedByTestId tB.id
        }).failedSetupProjectIds = [gA.projectId] := c3b.trans f1
  have u2 : (runCycle gB
      { S1 with queueIndexedByTestId := omDelete S1.queueIndexedByTestId tB.id
        }).unusedProjectSetupGroupsByProjectId = [] := c4b.trans u1
  have b2 : (runCycle gB
      { S1 with queueIndexedByTestId := omDelete S1.queueIndexedByTestId tB.id
        }).workerBusy = false := c5b
  have fin2 : (runCycle gB
      { S1 with queueIndexedByTestId := omDelete S1.queueIndexedByTestId tB.id
        }).finished = false := c6b.trans fin1
  have o2 : (runCycle gB
      { S1 with queueIndexedByTestId := omDelete S1.queueIndexedByTestId tB.id
        }).outbound
      = [submitTestResultMessage tA { status := .skipped, duration := 0 },
         submitTestResultMessage tB { status := .skipped, duration := 0 }] := by
    have hstep : (runCycle gB
        { S1 with queueIndexedByTestId := omDelete S1.queueIndexedByTestId tB.id
          }).outbound
        = S1.outbound
          ++ [submitTestResultMessage tB { status := .skipped, duration := 0 }] := c8b
    rw [hstep, o1]
    rfl
  have r2 : ∀ tid, getResults (runCycle gB
      { S1 with queueIndexedByTestId := omDelete S1.queueIndexedByTestId tB.id
        }) tid
      = getResults S1 tid
        ++ (gB.tests.filter (fun u => decide (u.id = tid))).map
            (fun _ => ({ status := .skipped, duration := 0 } : TestResult)) :=
    fun tid => c9b tid
  have e2 : (runCycle gB
      { S1 with queueIndexedByTestId := omDelete S1.queueIndexedByTestId tB.id
        }).events
      = S1.events
        ++ gB.tests.flatMap (fun u =>
            [ReporterEvent.testBegin u.id, ReporterEvent.testEnd u.id .skipped]) := c10b
  rw [scheduleJob_eos]
  generalize hS2 : runCycle gB
      { S1 with queueIndexedByTestId := omDelete S1.queueIndexedByTestId tB.id } = S2
        at q2 f2 u2 b2 fin2 o2 r2 e2 ⊢
  obtain ⟨k1, k2, k3, k4, k5, k6, k7, k8, k9⟩ := checkFinished_fields { S2 with queue := [] }
  have hfres : ∀ tid, getResults (checkFinished { S2 with queue := [] }) tid
      = getResults S2 tid := by
    intro tid
    unfold getResults
    rw [k5]
  have hfilterB : ∀ tid, (∀ v ∈ gB.tests, v.id ≠ tid) →
      gB.tests.filter (fun u => decide (u.id = tid)) = [] := by
    intro tid hv
    rw [List.filter_eq_nil_iff]
    intro v hv2
    simp [hv v hv2]
  refine ⟨?_, ?_, ?_, ?_, ?_, ?_, ?_, ?_, ?_, ?_⟩
  · rw [hfres tS.id, r2 tS.id, r1 tS.id, if_pos rfl,
      hfilterAB tS.id (fun v hv => hdSA v hv), hfilterB tS.id (fun v hv => hdSB v hv)]
    rfl
  · intro u hu
    rw [hfres u.id, r2 u.id, r1 u.id, if_neg (hdB2S u hu),
      hfilterAB u.id (fun v hv => (hdB2A u hu v hv).symm),
      hfilterB u.id (fun v hv => (hdB2B u hu v hv).symm)]
    rfl
  · rw [k3, f2]
    exact List.mem_cons_self _ _
  · rw [k4, u2]
    rfl
  · intro u hu
    rw [hfres u.id, r2 u.id, r1 u.id, if_neg (hdSA u hu),
      filter_id_eq_single gA.tests u hndA hu,
      hfilterB u.id (fun v hv => (hdAB u hu v hv).symm)]
    rfl
  · intro u hu
    rw [hfres u.id, r2 u.id, r1 u.id, if_neg (hdSB u hu),
      hfilterAB u.id (fun v hv => hdAB v hv u hu),
      filter_id_eq_single gB.tests u hndB hu]
    rfl
  · rw [k6, e2, e1]
    rfl
  · rw [k7, o2]
  · rw [k1]
  · rw [checkFinished_finished]
    have hb : ({ S2 with queue := [] } : DispatcherState).workerBusy = false := b2
    simp [hb]
    exact Or.inr b2

/-- C3, witness: project P with a failing sole-test setup group s1, an unused setup
group s2, and two ordinary groups a and b dispatched after it. -/
theorem C3_witness :
    getResults (runAbqDispatcher [mkGroup1 "P" "a" true, mkGroup1 "P" "b" true]
        [mkGroup1 "P" "s1" false, mkGroup1 "P" "s2" true]
        [some "a", some "b", none]) "s1"
      = [{ status := .failed, duration := 1 }]
    ∧ (∀ u ∈ (mkGroup1 "P" "s2" true).tests,
        getResults (runAbqDispatcher [mkGroup1 "P" "a" true, mkGroup1 "P" "b" true]
          [mkGroup1 "P" "s1" false, mkGroup1 "P" "s2" true]
          [some "a", some "b", none]) u.id = [])
    ∧ "P" ∈ (runAbqDispatcher [mkGroup1 "P" "a" true, mkGroup1 "P" "b" true]
        [mkGroup1 "P" "s1" false, mkGroup1 "P" "s2" true]
        [some "a", some "b", none]).failedSetupProjectIds
    ∧ omGet (runAbqDispatcher [mkGroup1 "P" "a" true, mkGroup1 "P" "b" true]
        [mkGroup1 "P" "s1" false, mkGroup1 "P" "s2" true]
        [some "a", some "b", none]).unusedProjectSetupGroupsByProjectId "P" = none
    ∧ (∀ u ∈ (mkGroup1 "P" "a" true).tests,
        getResults (runAbqDispatcher [mkGroup1 "P" "a" true, mkGroup1 "P" "b" true]
          [mkGroup1 "P" "s1" false, mkGroup1 "P" "s2" true]
          [some "a", some "b", none]) u.id = [{ status := .skipped, duration := 0 }])
    ∧ (∀ u ∈ (mkGroup1 "P" "b" true).tests,
        getResults (runAbqDispatcher [mkGroup1 "P" "a" true, mkGroup1 "P" "b" true]
          [mkGroup1 "P" "s1" false, mkGroup1 "P" "s2" true]
          [some "a", some "b", none]) u.id = [{ status := .skipped, duration := 0 }])
    ∧ (runAbqDispatcher [mkGroup1 "P" "a" true, mkGroup1 "P" "b" true]
        [mkGroup1 "P" "s1" false, mkGroup1 "P" "s2" true]
        [some "a", some "b", none]).events
      = ([ReporterEvent.testBegin "s1", ReporterEvent.testEnd "s1" .failed]
          ++ [ReporterEvent.testBegin "a", ReporterEvent.testEnd "a" .skipped])
        ++ [ReporterEvent.testBegin "b", ReporterEvent.testEnd "b" .skipped]
    ∧ (runAbqDispatcher [mkGroup1 "P" "a" true, mkGroup1 "P" "b" true]
        [mkGroup1 "P" "s1" false, mkGroup1 "P" "s2" true]
        [some "a", some "b", none]).outbound
      = [submitTestResultMessage (mkTestNamed "P" "a" true)
            { status := .skipped, duration := 0 },
         submitTestResultMessage (mkTestNamed "P" "b" true)
            { status := .skipped, duration := 0 }]
    ∧ (runAbqDispatcher [mkGroup1 "P" "a" true, mkGroup1 "P" "b" true]
        [mkGroup1 "P" "s1" false, mkGroup1 "P" "s2" true]
        [some "a", some "b", none]).queue = []
    ∧ (runAbqDispatcher [mkGroup1 "P" "a" true, mkGroup1 "P" "b" true]
        [mkGroup1 "P" "s1" false, mkGroup1 "P" "s2" true]
        [some "a", some "b", none]).finished = true :=
  C3_theorem (mkGroup1 "P" "a" true) (mkGroup1 "P" "b" true) (mkGroup1 "P" "s1" false)
    (mkGroup1 "P" "s2" true) (mkTestNamed "P" "s1" false) (mkTestNamed "P" "a" true)
    (mkTestNamed "P" "b" true) [] [] rfl rfl rfl rfl rfl rfl rfl (by decide) (by decide)
    (by decide) (by decide) (by decide) (by decide) (by decide) (by decide)

/-- C5, witness: the end-to-end ordering instantiated with three concrete
single-test groups a, b, c dispatched in the order b, a, c. -/
theorem C5_witness :
    (runAbqDispatcher
        [mkGroup1 "p" "a" true, mkGroup1 "p" "b" true, mkGroup1 "p" "c" true] []
        [some "b", some "a", some "c", none]).outbound
      = [submitTestResultMessage (mkTestNamed "p" "b" true)
            { status := .passed, duration := 1 },
         submitTestResultMessage (mkTestNamed "p" "a" true)
            { status := .passed, duration := 1 },
         submitTestResultMessage (mkTestNamed "p" "c" true)
            { status := .passed, duration := 1 }]
    ∧ (runAbqDispatcher
        [mkGroup1 "p" "a" true, mkGroup1 "p" "b" true, mkGroup1 "p" "c" true] []
        [some "b", some "a", some "c", none]).queue = []
    ∧ (runAbqDispatcher
        [mkGroup1 "p" "a" true, mkGroup1 "p" "b" true, mkGroup1 "p" "c" true] []
        [some "b", some "a", some "c", none]).finished = true :=
  C5_theorem (mkGroup1 "p" "a" true) (mkGroup1 "p" "b" true) (mkGroup1 "p" "c" true)
    (mkTestNamed "p" "a" true) (mkTestNamed "p" "b" true) (mkTestNamed "p" "c" true)
    [] [] [] rfl rfl rfl (by decide) (by decide) (by decide)

/-- C8, witness: the general truncation bounds instantiated at a concrete result of
duration 3/2 milliseconds. -/
theorem C8_witness :
    ((submitTestResultMessage sampleTest { status := .passed, duration := 3 / 2 }).runtime : ℚ)
      ≤ (3 / 2 : ℚ) * 1000000
    ∧ (3 / 2 : ℚ) * 1000000 - 1 <
        ((submitTestResultMessage sampleTest
          { status := .passed, duration := 3 / 2 }).runtime : ℚ) :=
  C8_theorem.1 sampleTest { status := .passed, duration := 3 / 2 } (by norm_num)


/-- C6: for every input sequence of project suites and every worker count at least 1,
the multiset union of the emitted groups' tests equals the input test multiset (so each
input test occurrence lands in exactly one group), and within any one emitted group all
member tests are input tests sharing the group's workerHash and requireFile and, given
that the worker-hash fingerprint determines the repeat index (the fingerprint is built
from it upstream), the group's repeatEachIndex. -/
theorem C6_theorem (ps : List (List TestCase)) (w : Nat) ( _hw : 1 ≤ w)
    (hhash : ∀ u ∈ ps.flatten, ∀ v ∈ ps.flatten,
        u.workerHash = v.workerHash → u.repeatEachIndex = v.repeatEachIndex) :
    (((createTestGroups ps w).flatMap (fun g => g.tests)) : Multiset TestCase)
        = (ps.flatten : Multiset TestCase)
      ∧ ∀ g ∈ createTestGroups ps w, ∀ t ∈ g.tests,
          t ∈ ps.flatten ∧ t.workerHash = g.workerHash
            ∧ t.requireFile = g.requireFile ∧ t.repeatEachIndex = g.repeatEachIndex := by
  refine ⟨createTestGroups_multiset ps w, ?_⟩
  intro g hg t htg
  obtain ⟨wh, rf, hgi⟩ := createTestGroups_homog ps w g hg
  obtain ⟨h1, h2, ⟨t0, ht0, ht0w, ht0r⟩, h4⟩ := hgi
  obtain ⟨htin, htw, htr⟩ := h4 t htg
  refine ⟨htin, by rw [htw, h1], by rw [htr, h2], ?_⟩
  rw [← ht0r]
  exact hhash t htin t0 ht0 (by rw [htw, ← ht0w])

/-- C6, witness: the multiset-preservation half instantiated at a concrete two-test
project suite with two workers; both hypotheses hold by computation. -/
theorem C6_witness :
    (((createTestGroups [[mkTestNamed "p" "a" true, mkTestNamed "p" "b" true]] 2).flatMap
        (fun g => g.tests)) : Multiset TestCase)
      = (([[mkTestNamed "p" "a" true, mkTestNamed "p" "b" true]]
          : List (List TestCase)).flatten : Multiset TestCase) :=
  (C6_theorem [[mkTestNamed "p" "a" true, mkTestNamed "p" "b" true]] 2
    (by decide) (by decide)).1

/-- C7: the test-group builder is deterministic - two invocations on identical input
(the same project suites in the same order and the same worker count) produce the same
group sequence, with the same tests in the same internal order.  The embedding models
the JavaScript Maps of createTestGroups as insertion-ordered association lists, which
is exactly the iteration-order guarantee of the JavaScript Map specification; with that
guarantee the source function is a pure function of its arguments. -/
theorem C7_theorem (ps ps2 : List (List TestCase)) (w w2 : Nat)
    (hps : ps = ps2) (hw : w = w2) :
    createTestGroups ps w = createTestGroups ps2 w2 := by
  rw [hps, hw]

/-- C7, witness: the determinism congruence instantiated at a concrete input. -/
theorem C7_witness :
    createTestGroups [[mkTestNamed "p" "a" true]] 1
      = createTestGroups [[mkTestNamed "p" "a" true]] 1 :=
  C7_theorem [[mkTestNamed "p" "a" true]] [[mkTestNamed "p" "a" true]] 1 1 rfl rfl

end PlaywrightAbq
